import Mathlib

/-!
# Issue management API: a shallow embedding of `main.go`

The Go program keeps three package-level variables (`users`, `issues`,
`issueIDSeq`) and four HTTP handlers.  The embedding below turns the handlers
into pure functions on an explicit `Store`:

* `map[uint]*Issue` is an association list read with `mapGet` (first binding of
  a key wins) and written with `mapSet` (replace the binding in place, append
  when the key is new);
* a handler that holds a `*Issue` and assigns to its fields mutates the record
  that the map points to, so every assignment is written back to the store
  under the key the pointer was fetched from, also on the paths that return an
  error afterwards;
* `uint` is a natural number, and the only arithmetic on it (`issueIDSeq++`)
  wraps modulo `2 ^ 64`;
* `time.Now()` is an argument of the handler;
* the decoded request body is an argument (`none` when the JSON decoder
  reports an error), and so is the result of `strconv.Atoi` on the path
  variable (`none` when it reports an error);
* what a handler writes to the `http.ResponseWriter` is returned as a
  `Response`: the status code and the encoded value;
* a handler is one function of the store, which is how requests served one
  after the other behave; for requests served concurrently `updateIssue` is
  also given in two steps, split where it releases `mu`, and `interleave`
  runs two such requests under a schedule.
-/

namespace IssueApi

/-! ## Data model (lines 14-51) -/

/-- User record: `type User struct` (lines 15-18). -/
structure User where
  ID : Nat
  Name : String
  deriving DecidableEq

/-- Issue record: `type Issue struct` (lines 21-29); `*User` is an optional user. -/
structure Issue where
  ID : Nat
  Title : String
  Description : String
  Status : String
  User : Option User
  CreatedAt : Nat
  UpdatedAt : Nat
  deriving DecidableEq

/-- Width of the Go type `uint` on the 64-bit targets the service is built for. -/
def uintModulus : Nat := 2 ^ 64

/-- Map lookup `m[k]` with the comma-ok result: the first binding of `k`. -/
def mapGet {β : Type} : List (Nat × β) → Nat → Option β
  | [], _ => none
  | (k', v) :: rest, k => if k' = k then some v else mapGet rest k

/-- Map assignment `m[k] = v`: replaces the binding of `k`, or adds one. -/
def mapSet {β : Type} : List (Nat × β) → Nat → β → List (Nat × β)
  | [], k, v => [(k, v)]
  | (k', v') :: rest, k, v =>
    if k' = k then (k, v) :: rest else (k', v') :: mapSet rest k v

/-- Values of a map, each key visited once (`for _, v := range m`), in the
order of the underlying list. -/
def mapValuesFrom {β : Type} (seen : List Nat) : List (Nat × β) → List β
  | [] => []
  | (k, v) :: rest =>
    if k ∈ seen then mapValuesFrom seen rest else v :: mapValuesFrom (k :: seen) rest

/-- Values of a map: see `mapValuesFrom`. -/
def mapValues {β : Type} (m : List (Nat × β)) : List β := mapValuesFrom [] m

/-- Fixed user directory: `users` (lines 33-37). -/
def users : List (Nat × User) :=
  [(1, ⟨1, "김개발"⟩), (2, ⟨2, "이디자인"⟩), (3, ⟨3, "박기획"⟩)]

/-- Package state: the variables `issues` and `issueIDSeq` (lines 39-40). -/
structure Store where
  issues : List (Nat × Issue)
  issueIDSeq : Nat
  deriving DecidableEq

/-- Store at process start: an empty map and `issueIDSeq = 1`. -/
def initialStore : Store := ⟨[], 1⟩

/-- Set of status strings: `validStatuses` (lines 46-51). -/
def validStatuses : List (String × Bool) :=
  [("PENDING", true), ("IN_PROGRESS", true), ("COMPLETED", true), ("CANCELLED", true)]

/-- Status check: `isValidStatus` (lines 54-56); a missing key reads as `false`. -/
def isValidStatus (s : String) : Bool :=
  (validStatuses.lookup s).getD false

/-! ## Responses (lines 58-66 and the success paths of the handlers) -/

/-- Value that a handler encodes into the response body. -/
inductive Body where
  | error (message : String) (code : Nat)
  | issue (issue : Issue)
  | issues (issues : List Issue)
  | detail (ID : Nat) (Title Description Status : String) (CreatedAt UpdatedAt : Nat)
  deriving DecidableEq

/-- Status code and body written by a handler. -/
structure Response where
  code : Nat
  body : Body
  deriving DecidableEq

/-- Error response: `respondWithError` (lines 59-66). -/
def respondWithError (code : Nat) (message : String) : Response :=
  ⟨code, Body.error message code⟩

/-! ## `POST /issue` (lines 69-128) -/

/-- Decoded body of `POST /issue`: `createIssueRequest` (lines 70-74). -/
structure CreateIssueRequest where
  Title : String
  Description : Option String
  UserID : Option Nat
  deriving DecidableEq

/-- Second critical section of `createIssue` (lines 105-127): build the record,
store it under `issueIDSeq`, advance the counter, answer 201. -/
def createIssue.store (s : Store) (now : Nat) (req : CreateIssueRequest)
    (user : Option User) (status : String) : Store × Response :=
  let issue : Issue :=
    { ID := s.issueIDSeq, Title := req.Title, Description := "", Status := status,
      User := user, CreatedAt := now, UpdatedAt := now }
  let issue : Issue :=
    match req.Description with
    | some d => { issue with Description := d }
    | none => issue
  ({ issues := mapSet s.issues s.issueIDSeq issue,
     issueIDSeq := (s.issueIDSeq + 1) % uintModulus },
   ⟨201, Body.issue issue⟩)

/-- Handler `createIssue` (lines 69-128). -/
def createIssue (s : Store) (now : Nat) (body : Option CreateIssueRequest) :
    Store × Response :=
  match body with
  | none => (s, respondWithError 400 "Invalid JSON body")
  | some req =>
    if req.Title = "" then (s, respondWithError 400 "필수 필드 title 누락")
    else
      match req.UserID with
      | some uid =>
        match mapGet users uid with
        | none => (s, respondWithError 400 "유효하지 않은 userId")
        | some u => createIssue.store s now req (some u) "IN_PROGRESS"
      | none => createIssue.store s now req none "PENDING"

/-! ## `GET /issues` and `GET /issue/{id}` (lines 131-199) -/

/-- Handler `getAllIssues` (lines 131-159). -/
def getAllIssues (s : Store) (statusFilter : String) : Store × Response :=
  if statusFilter ≠ "" ∧ isValidStatus statusFilter = false then
    (s, respondWithError 400 "유효하지 않은 status")
  else
    (s, ⟨200, Body.issues
      ((mapValues s.issues).filter
        (fun issue => decide (statusFilter = "" ∨ issue.Status = statusFilter)))⟩)

/-- Handler `getIssueByID` (lines 162-199). -/
def getIssueByID (s : Store) (idParsed : Option Int) : Store × Response :=
  match idParsed with
  | none => (s, respondWithError 400 "Invalid issue id")
  | some id =>
    if id ≤ 0 then (s, respondWithError 400 "Invalid issue id")
    else
      match mapGet s.issues id.toNat with
      | none => (s, respondWithError 404 "Issue not found")
      | some issue =>
        (s, ⟨200, Body.detail issue.ID issue.Title issue.Description issue.Status
          issue.CreatedAt issue.UpdatedAt⟩)

/-! ## `PATCH /issue/{id}` (lines 202-289) -/

/-- Decoded body of `PATCH /issue/{id}`: `updateIssueRequest` (lines 211-216). -/
structure UpdateIssueRequest where
  Title : Option String
  Description : Option String
  Status : Option String
  UserID : Option Nat
  deriving DecidableEq

/-- Assignee block of `updateIssue` (lines 241-261).  The result is the record
behind the pointer after the block, and either the response of the early
return or the value of the local variable `user`. -/
def updateIssue.assignee (issue : Issue) (req : UpdateIssueRequest) :
    Issue × Except Response (Option User) :=
  match req.UserID with
  | none => (issue, Except.ok issue.User)
  | some uid =>
    if uid = 0 then
      ({ issue with Status := "PENDING" }, Except.ok none)
    else
      match mapGet users uid with
      | none => (issue, Except.error (respondWithError 400 "유효하지 않은 userId"))
      | some u =>
        if issue.Status = "PENDING" ∧ req.Status = none then
          ({ issue with Status := "IN_PROGRESS" }, Except.ok (some u))
        else
          (issue, Except.ok (some u))

/-- Status block of `updateIssue` (lines 263-274).  The result is the record
behind the pointer after the block, and the response of the early return when
one of the two checks fails. -/
def updateIssue.status (issue : Issue) (user : Option User) (req : UpdateIssueRequest) :
    Issue × Option Response :=
  match req.Status with
  | none => (issue, none)
  | some st =>
    if isValidStatus st = false then
      (issue, some (respondWithError 400 "유효하지 않은 status"))
    else if user = none ∧ st ≠ "PENDING" ∧ st ≠ "CANCELLED" then
      (issue, some (respondWithError 400
        "담당자 없는 상태에서 PENDING 또는 CANCELLED 상태만 지정 가능"))
    else
      ({ issue with Status := st }, none)

/-- Tail of `updateIssue` (lines 276-284): title, description, assignee and
update time. -/
def updateIssue.fields (issue : Issue) (user : Option User) (req : UpdateIssueRequest)
    (now : Nat) : Issue :=
  let issue : Issue :=
    match req.Title with
    | some t => { issue with Title := t }
    | none => issue
  let issue : Issue :=
    match req.Description with
    | some d => { issue with Description := d }
    | none => issue
  { issue with User := user, UpdatedAt := now }

/-- Critical section of `updateIssue` (lines 238-288), as a function of the
record that the pointer `issue` refers to: the record when the handler returns,
and the response it has written.  On the two paths that return early the record
is the one the blocks executed so far have left behind. -/
def updateIssue.locked (issue : Issue) (req : UpdateIssueRequest) (now : Nat) :
    Issue × Response :=
  match updateIssue.assignee issue req with
  | (issue, Except.error resp) => (issue, resp)
  | (issue, Except.ok user) =>
    match updateIssue.status issue user req with
    | (issue, some resp) => (issue, resp)
    | (issue, none) =>
      let issue := updateIssue.fields issue user req now
      (issue, ⟨200, Body.issue issue⟩)

/-- Store in which the record that `issues[key]` points to has become `issue`. -/
def Store.assign (s : Store) (key : Nat) (issue : Issue) : Store :=
  { s with issues := mapSet s.issues key issue }

/-- Handler `updateIssue` (lines 202-289). -/
def updateIssue (s : Store) (now : Nat) (idParsed : Option Int)
    (body : Option UpdateIssueRequest) : Store × Response :=
  match idParsed with
  | none => (s, respondWithError 400 "Invalid issue id")
  | some id =>
    if id ≤ 0 then (s, respondWithError 400 "Invalid issue id")
    else
      match body with
      | none => (s, respondWithError 400 "Invalid JSON body")
      | some req =>
        match mapGet s.issues id.toNat with
        | none => (s, respondWithError 404 "Issue not found")
        | some issue =>
          if issue.Status = "COMPLETED" ∨ issue.Status = "CANCELLED" then
            (s, respondWithError 403 "Completed or cancelled issues cannot be updated")
          else
            let r := updateIssue.locked issue req now
            (s.assign id.toNat r.1, r.2)

/-! ## Sequences of requests -/

/-- One request to the service, with the clock reading it observes. -/
inductive Call where
  | create (now : Nat) (body : Option CreateIssueRequest)
  | update (now : Nat) (idParsed : Option Int) (body : Option UpdateIssueRequest)
  | getAll (statusFilter : String)
  | getByID (idParsed : Option Int)
  deriving DecidableEq

/-- Dispatch of one request to its handler (routes of `main`, lines 295-298). -/
def serve (s : Store) : Call → Store × Response
  | Call.create now body => createIssue s now body
  | Call.update now idParsed body => updateIssue s now idParsed body
  | Call.getAll statusFilter => getAllIssues s statusFilter
  | Call.getByID idParsed => getIssueByID s idParsed

/-- Serve the requests one after the other; the responses are in request order. -/
def serveAll (s : Store) : List Call → Store × List Response
  | [] => (s, [])
  | c :: cs =>
    let r := serve s c
    let rs := serveAll r.1 cs
    (rs.1, r.2 :: rs.2)

/-- Identifier announced by a response: the `id` of the record in a 201
response, which only a successful create writes. -/
def createdID (r : Response) : Option Nat :=
  if r.code = 201 then
    match r.body with
    | Body.issue issue => some issue.ID
    | _ => none
  else none

/-- Identifiers announced by the successful creates among the responses, in
request order. -/
def createdIDs (rs : List Response) : List Nat := rs.filterMap createdID

/-- Result of `strconv.Atoi` (lines 165 and 205) on the decimal numeral of `n`,
the path variable a client sends to address issue `n`: `int` has 64 bits, so
the numeral of a number from `2 ^ 63` on is a range error. -/
def atoiNumeral (n : Nat) : Option Int :=
  if n < 2 ^ 63 then some (n : Int) else none

/-! ## Predicates and closed forms used in the statements -/

/-- Assignee rule of the data model, for one record. -/
def Issue.assigneeRule (issue : Issue) : Prop :=
  issue.User = none → issue.Status = "PENDING" ∨ issue.Status = "CANCELLED"

instance Issue.decidableAssigneeRule (issue : Issue) : Decidable issue.assigneeRule := by
  unfold Issue.assigneeRule; infer_instance

/-- Assignee rule for every record of the store. -/
def Store.assigneeRule (s : Store) : Prop :=
  ∀ e ∈ s.issues, e.2.assigneeRule

instance Store.decidableAssigneeRule (s : Store) : Decidable s.assigneeRule := by
  unfold Store.assigneeRule; infer_instance

/-- Every record is stored under its own `ID`, and no key occurs twice. -/
def Store.wellKeyed (s : Store) : Prop :=
  (∀ e ∈ s.issues, e.2.ID = e.1) ∧ (s.issues.map Prod.fst).Nodup

instance Store.decidableWellKeyed (s : Store) : Decidable s.wellKeyed := by
  unfold Store.wellKeyed; infer_instance

/-- Record that `createIssue` builds (lines 108-119). -/
def createIssue.record (s : Store) (now : Nat) (req : CreateIssueRequest)
    (user : Option User) (status : String) : Issue :=
  { ID := s.issueIDSeq, Title := req.Title, Description := req.Description.getD "",
    Status := status, User := user, CreatedAt := now, UpdatedAt := now }


/-- Status rule of the data model, for one record: one of the four values. -/
def Issue.statusRule (issue : Issue) : Prop :=
  issue.Status = "PENDING" ∨ issue.Status = "IN_PROGRESS" ∨ issue.Status = "COMPLETED" ∨
    issue.Status = "CANCELLED"

instance Issue.decidableStatusRule (issue : Issue) : Decidable issue.statusRule := by
  unfold Issue.statusRule; infer_instance

/-- Status rule for every record of the store. -/
def Store.statusRule (s : Store) : Prop :=
  ∀ e ∈ s.issues, e.2.statusRule

instance Store.decidableStatusRule (s : Store) : Decidable s.statusRule := by
  unfold Store.statusRule; infer_instance


/-- Keys of a map in the order in which `mapValuesFrom` visits them. -/
def mapKeysFrom {β : Type} (seen : List Nat) : List (Nat × β) → List Nat
  | [] => []
  | (k, _) :: rest =>
    if k ∈ seen then mapKeysFrom seen rest else k :: mapKeysFrom (k :: seen) rest


/-- Update request whose payload supplies the empty string as title. -/
def Call.suppliesEmptyTitle : Call → Prop
  | Call.update _ _ (some req) => req.Title = some ""
  | _ => False

instance Call.decidableSuppliesEmptyTitle (c : Call) : Decidable c.suppliesEmptyTitle := by
  cases c with
  | create now body => exact isFalse (fun h => h)
  | update now idParsed body =>
    cases body with
    | none => exact isFalse (fun h => h)
    | some req => exact inferInstanceAs (Decidable (req.Title = some ""))
  | getAll statusFilter => exact isFalse (fun h => h)
  | getByID idParsed => exact isFalse (fun h => h)

/-- Title rule of the data model for every record of the store. -/
def Store.titleRule (s : Store) : Prop :=
  ∀ e ∈ s.issues, e.2.Title ≠ ""

instance Store.decidableTitleRule (s : Store) : Decidable s.titleRule := by
  unfold Store.titleRule; infer_instance


/-! ## `updateIssue` at the granularity of its lock (lines 224-239)

The handler takes `mu` twice: around the map lookup (lines 224-226) and, after
the terminal-state check of line 233, from line 238 to its return.  Between the
two sections the lock is free, so another request can run there.  The handler
is split at that point; a request in flight is either before the split, waiting
for the second lock, or answered. -/

/-- Part of `updateIssue` before the second `mu.Lock()` (lines 203-236): the
early response, or the key under which the pointer `issue` was fetched together
with the decoded request. -/
def updateIssue.unlocked (s : Store) (idParsed : Option Int)
    (body : Option UpdateIssueRequest) : Except Response (Nat × UpdateIssueRequest) :=
  match idParsed with
  | none => Except.error (respondWithError 400 "Invalid issue id")
  | some id =>
    if id ≤ 0 then Except.error (respondWithError 400 "Invalid issue id")
    else
      match body with
      | none => Except.error (respondWithError 400 "Invalid JSON body")
      | some req =>
        match mapGet s.issues id.toNat with
        | none => Except.error (respondWithError 404 "Issue not found")
        | some issue =>
          if issue.Status = "COMPLETED" ∨ issue.Status = "CANCELLED" then
            Except.error
              (respondWithError 403 "Completed or cancelled issues cannot be updated")
          else Except.ok (id.toNat, req)

/-- Part of `updateIssue` from the second `mu.Lock()` on (lines 238-288), run
on the store as it is when the lock is acquired: the pointer refers to the
record now stored under `key`.  No handler removes a key, so that record
exists; `none` stands for the case that it does not. -/
def updateIssue.critical (s : Store) (now : Nat) (key : Nat) (req : UpdateIssueRequest) :
    Option (Store × Response) :=
  match mapGet s.issues key with
  | none => none
  | some issue =>
    let r := updateIssue.locked issue req now
    some (s.assign key r.1, r.2)

/-- Update request in flight. -/
inductive InFlight where
  | arrived (now : Nat) (idParsed : Option Int) (body : Option UpdateIssueRequest)
  | waiting (now : Nat) (key : Nat) (req : UpdateIssueRequest)
  | answered (resp : Response)
  deriving DecidableEq

/-- Next step of a request in flight: up to the second `mu.Lock()`, or the
critical section that follows it. -/
def InFlight.step (s : Store) : InFlight → Store × InFlight
  | InFlight.arrived now idParsed body =>
    match updateIssue.unlocked s idParsed body with
    | Except.error resp => (s, InFlight.answered resp)
    | Except.ok (key, req) => (s, InFlight.waiting now key req)
  | InFlight.waiting now key req =>
    match updateIssue.critical s now key req with
    | some (s', resp) => (s', InFlight.answered resp)
    | none => (s, InFlight.waiting now key req)
  | InFlight.answered resp => (s, InFlight.answered resp)

/-- Two update requests served concurrently: the schedule names, step by step,
the request that runs next (`false` the first, `true` the second). -/
def interleave (s : Store) (a b : InFlight) : List Bool → Store × InFlight × InFlight
  | [] => (s, a, b)
  | false :: rest => interleave (a.step s).1 (a.step s).2 b rest
  | true :: rest => interleave (b.step s).1 a (b.step s).2 rest

/-! ## Sample data used to instantiate the theorems -/

/-- First entry of the user directory. -/
def userKim : User := ⟨1, "김개발"⟩

/-- Issue 1, created at time 5 and last updated at time 6. -/
def sampleIssue (status : String) (user : Option User) : Issue :=
  ⟨1, "bug", "", status, user, 5, 6⟩

/-- Store that holds `sampleIssue` under key 1, with the counter at 2. -/
def sampleStore (status : String) (user : Option User) : Store :=
  ⟨[(1, sampleIssue status user)], 2⟩

/-! ## Properties of the map operations -/

theorem mapGet_mapSet {β : Type} (m : List (Nat × β)) (k k' : Nat) (v : β) :
    mapGet (mapSet m k v) k' = if k = k' then some v else mapGet m k' := by
  induction m with
  | nil =>
    by_cases h : k = k' <;> simp [mapSet, mapGet, h]
  | cons e rest ih =>
    obtain ⟨k0, v0⟩ := e
    by_cases h0 : k0 = k
    · subst h0
      by_cases h : k0 = k' <;> simp [mapSet, mapGet, h]
    · by_cases h : k = k'
      · subst h
        simp [mapSet, mapGet, h0, ih]
      · by_cases h1 : k0 = k'
        · subst h1
          simp [mapSet, mapGet, h0, h]
        · simp [mapSet, mapGet, h0, h1, h, ih]

theorem mapSet_of_mapGet {β : Type} (m : List (Nat × β)) (k : Nat) (v : β)
    (h : mapGet m k = some v) : mapSet m k v = m := by
  induction m with
  | nil => simp [mapGet] at h
  | cons e rest ih =>
    obtain ⟨k0, v0⟩ := e
    by_cases h0 : k0 = k
    · subst h0
      simp [mapGet] at h
      simp [mapSet, h]
    · simp [mapGet, h0] at h
      simp [mapSet, h0, ih h]

theorem mem_of_mapGet {β : Type} (m : List (Nat × β)) (k : Nat) (v : β)
    (h : mapGet m k = some v) : (k, v) ∈ m := by
  induction m with
  | nil => simp [mapGet] at h
  | cons e rest ih =>
    obtain ⟨k0, v0⟩ := e
    by_cases h0 : k0 = k
    · subst h0
      simp [mapGet] at h
      simp [h]
    · simp [mapGet, h0] at h
      exact List.mem_cons_of_mem _ (ih h)

theorem mem_mapSet {β : Type} (m : List (Nat × β)) (k : Nat) (v : β) (e : Nat × β)
    (h : e ∈ mapSet m k v) : e = (k, v) ∨ e ∈ m := by
  induction m with
  | nil => simpa [mapSet] using h
  | cons e0 rest ih =>
    obtain ⟨k0, v0⟩ := e0
    by_cases h0 : k0 = k
    · simp [mapSet, h0] at h
      rcases h with h | h
      · exact Or.inl h
      · exact Or.inr (List.mem_cons_of_mem _ h)
    · simp [mapSet, h0] at h
      rcases h with h | h
      · exact Or.inr (by simp [h])
      · rcases ih h with h | h
        · exact Or.inl h
        · exact Or.inr (List.mem_cons_of_mem _ h)

theorem isValidStatus_iff (st : String) :
    isValidStatus st = true ↔
      st = "PENDING" ∨ st = "IN_PROGRESS" ∨ st = "COMPLETED" ∨ st = "CANCELLED" := by
  unfold isValidStatus validStatuses
  by_cases h1 : st = "PENDING"
  · subst h1; decide
  by_cases h2 : st = "IN_PROGRESS"
  · subst h2; decide
  by_cases h3 : st = "COMPLETED"
  · subst h3; decide
  by_cases h4 : st = "CANCELLED"
  · subst h4; decide
  have e1 : (st == "PENDING") = false := by simpa using h1
  have e2 : (st == "IN_PROGRESS") = false := by simpa using h2
  have e3 : (st == "COMPLETED") = false := by simpa using h3
  have e4 : (st == "CANCELLED") = false := by simpa using h4
  simp [List.lookup, e1, e2, e3, e4, h1, h2, h3, h4]

theorem mapGet_users_iff (uid : Nat) :
    (∃ u, mapGet users uid = some u) ↔ uid = 1 ∨ uid = 2 ∨ uid = 3 := by
  unfold users
  by_cases h1 : 1 = uid
  · subst h1; simp [mapGet]
  by_cases h2 : 2 = uid
  · subst h2; simp [mapGet]
  by_cases h3 : 3 = uid
  · subst h3; simp [mapGet]
  simp [mapGet, h1, h2, h3]
  omega

/-! ## The update handler, path by path -/

theorem assign_of_mapGet (s : Store) (k : Nat) (issue : Issue)
    (h : mapGet s.issues k = some issue) : s.assign k issue = s := by
  simp [Store.assign, mapSet_of_mapGet s.issues k issue h]


theorem updateIssue_open (s : Store) (now : Nat) (id : Int) (req : UpdateIssueRequest)
    (issue : Issue) (hid : 0 < id) (hget : mapGet s.issues id.toNat = some issue)
    (hopen : ¬ (issue.Status = "COMPLETED" ∨ issue.Status = "CANCELLED")) :
    updateIssue s now (some id) (some req) =
      (s.assign id.toNat (updateIssue.locked issue req now).1,
        (updateIssue.locked issue req now).2) := by
  have hid' : ¬ id ≤ 0 := not_le.mpr hid
  simp only [updateIssue, hid', hget, hopen, if_false]

theorem updateIssue_terminal (s : Store) (now : Nat) (id : Int) (req : UpdateIssueRequest)
    (issue : Issue) (hid : 0 < id) (hget : mapGet s.issues id.toNat = some issue)
    (hterm : issue.Status = "COMPLETED" ∨ issue.Status = "CANCELLED") :
    updateIssue s now (some id) (some req) =
      (s, respondWithError 403 "Completed or cancelled issues cannot be updated") := by
  have hid' : ¬ id ≤ 0 := not_le.mpr hid
  simp only [updateIssue, hid', hget, hterm, if_true, if_false]

theorem updateIssue_store_cases (s : Store) (now : Nat) (idParsed : Option Int)
    (body : Option UpdateIssueRequest) :
    (updateIssue s now idParsed body).1 = s ∨
      ∃ id req issue, 0 < id ∧ idParsed = some id ∧ body = some req ∧
        mapGet s.issues id.toNat = some issue ∧
        ¬ (issue.Status = "COMPLETED" ∨ issue.Status = "CANCELLED") ∧
        (updateIssue s now idParsed body).1 =
          s.assign id.toNat (updateIssue.locked issue req now).1 := by
  cases idParsed with
  | none => left; rfl
  | some id =>
    by_cases hid : id ≤ 0
    · left; simp [updateIssue, hid]
    · cases body with
      | none => left; simp [updateIssue, hid]
      | some req =>
        cases hget : mapGet s.issues id.toNat with
        | none => left; simp [updateIssue, hid, hget]
        | some issue =>
          by_cases hopen : issue.Status = "COMPLETED" ∨ issue.Status = "CANCELLED"
          · left; simp [updateIssue, hid, hget, hopen]
          · right
            refine ⟨id, req, issue, not_le.mp hid, rfl, rfl, hget, hopen, ?_⟩
            rw [updateIssue_open s now id req issue (not_le.mp hid) hget hopen]

theorem locked_assigneeRule (issue : Issue) (req : UpdateIssueRequest) (now : Nat)
    (h : issue.assigneeRule) : (updateIssue.locked issue req now).1.assigneeRule := by
  obtain ⟨title, description, status, userID⟩ := req
  unfold Issue.assigneeRule at h ⊢
  unfold updateIssue.locked updateIssue.assignee updateIssue.status updateIssue.fields
  cases userID with
  | none =>
    cases status with
    | none => cases title <;> cases description <;> simpa using h
    | some st =>
      by_cases hv : isValidStatus st = false
      · simpa [hv] using h
      · by_cases hu : issue.User = none ∧ st ≠ "PENDING" ∧ st ≠ "CANCELLED"
        · simpa [hv, hu] using h
        · simp only [hv, hu, if_false]
          cases title <;> cases description <;> simp <;> intro h' <;> simp [h'] at hu <;> tauto
  | some uid =>
    by_cases h0 : uid = 0
    · cases status with
      | none => cases title <;> cases description <;> simp [h0]
      | some st =>
        by_cases hv : isValidStatus st = false
        · simp [h0, hv]
        · by_cases hu : st ≠ "PENDING" ∧ st ≠ "CANCELLED"
          · simp [h0, hv, hu]
          · simp only [h0, hv, hu, if_true, if_false, true_and]
            cases title <;> cases description <;> simp <;> tauto
    · cases hm : mapGet users uid with
      | none => simpa [h0, hm] using h
      | some u =>
        cases status with
        | none =>
          by_cases hp : issue.Status = "PENDING"
          · cases title <;> cases description <;> simp [h0, hm, hp]
          · cases title <;> cases description <;> simp [h0, hm, hp]
        | some st =>
          by_cases hv : isValidStatus st = false
          · simpa [h0, hm, hv] using h
          · cases title <;> cases description <;> simp [h0, hm, hv]

/-! ## The create handler, path by path -/

theorem createIssue_store_eq (s : Store) (now : Nat) (req : CreateIssueRequest)
    (user : Option User) (status : String) :
    createIssue.store s now req user status =
      (⟨mapSet s.issues s.issueIDSeq (createIssue.record s now req user status),
        (s.issueIDSeq + 1) % uintModulus⟩,
       ⟨201, Body.issue (createIssue.record s now req user status)⟩) := by
  obtain ⟨title, description, userID⟩ := req
  cases description <;> rfl

theorem createIssue_cases (s : Store) (now : Nat) (body : Option CreateIssueRequest) :
    ((createIssue s now body).1 = s ∧ ∃ msg, (createIssue s now body).2 = respondWithError 400 msg) ∨
      ∃ req user status, body = some req ∧ req.Title ≠ "" ∧
        ((req.UserID = none ∧ user = none ∧ status = "PENDING") ∨
          (∃ uid u, req.UserID = some uid ∧ mapGet users uid = some u ∧
            user = some u ∧ status = "IN_PROGRESS")) ∧
        createIssue s now body = createIssue.store s now req user status := by
  cases body with
  | none => left; exact ⟨rfl, _, rfl⟩
  | some req =>
    by_cases ht : req.Title = ""
    · left; simp [createIssue, ht]
    · cases hu : req.UserID with
      | none =>
        right
        exact ⟨req, none, "PENDING", rfl, ht, Or.inl ⟨hu, rfl, rfl⟩, by simp [createIssue, ht, hu]⟩
      | some uid =>
        cases hm : mapGet users uid with
        | none => left; simp [createIssue, ht, hu, hm]
        | some u =>
          right
          exact ⟨req, some u, "IN_PROGRESS", rfl, ht,
            Or.inr ⟨uid, u, hu, hm, rfl, rfl⟩, by simp [createIssue, ht, hu, hm]⟩

/-! ## Invariants along a sequence of requests -/

theorem getAllIssues_store (s : Store) (statusFilter : String) :
    (getAllIssues s statusFilter).1 = s := by
  unfold getAllIssues; split <;> rfl

theorem getIssueByID_store (s : Store) (idParsed : Option Int) :
    (getIssueByID s idParsed).1 = s := by
  unfold getIssueByID
  split
  · rfl
  · split
    · rfl
    · split <;> rfl

theorem serveAll_invariant (P : Store → Prop) (hstep : ∀ s c, P s → P (serve s c).1)
    (s : Store) (hs : P s) (calls : List Call) : P (serveAll s calls).1 := by
  induction calls generalizing s with
  | nil => exact hs
  | cons c cs ih => exact ih (serve s c).1 (hstep s c hs)

theorem mapSet_forall {β : Type} (P : β → Prop) (m : List (Nat × β)) (k : Nat) (v : β)
    (hm : ∀ e ∈ m, P e.2) (hv : P v) : ∀ e ∈ mapSet m k v, P e.2 := by
  intro e he
  rcases mem_mapSet m k v e he with h | h
  · subst h; exact hv
  · exact hm e h

theorem serve_assigneeRule (s : Store) (c : Call) (hs : s.assigneeRule) :
    (serve s c).1.assigneeRule := by
  cases c with
  | create now body =>
    rcases createIssue_cases s now body with ⟨h, _⟩ | ⟨req, user, status, _, _, hus, h⟩
    · simp only [serve, h]; exact hs
    · simp only [serve, h, createIssue_store_eq]
      refine mapSet_forall Issue.assigneeRule _ _ _ hs ?_
      rcases hus with ⟨_, hu, hst⟩ | ⟨uid, u, _, _, hu, hst⟩
      · subst hu; subst hst; intro _; left; rfl
      · subst hu; subst hst; intro hn; simp [createIssue.record] at hn
  | update now idParsed body =>
    rcases updateIssue_store_cases s now idParsed body with h | ⟨id, req, issue, _, _, _, hget, _, h⟩
    · simp only [serve, h]; exact hs
    · simp only [serve, h]
      exact mapSet_forall Issue.assigneeRule _ _ _ hs
        (locked_assigneeRule issue req now (hs _ (mem_of_mapGet _ _ _ hget)))
  | getAll statusFilter => simp only [serve, getAllIssues_store]; exact hs
  | getByID idParsed => simp only [serve, getIssueByID_store]; exact hs

/-! ## The tail of the update handler, field by field -/

theorem fields_eq (issue : Issue) (user : Option User) (req : UpdateIssueRequest) (now : Nat) :
    updateIssue.fields issue user req now =
      { ID := issue.ID, Title := req.Title.getD issue.Title,
        Description := req.Description.getD issue.Description, Status := issue.Status,
        User := user, CreatedAt := issue.CreatedAt, UpdatedAt := now } := by
  obtain ⟨title, description, status, userID⟩ := req
  cases title <;> cases description <;> rfl

theorem locked_clear (issue : Issue) (req : UpdateIssueRequest) (now : Nat)
    (huid : req.UserID = some 0) (hst : req.Status = none) :
    updateIssue.locked issue req now =
      (updateIssue.fields { issue with Status := "PENDING" } none req now,
        ⟨200, Body.issue (updateIssue.fields { issue with Status := "PENDING" } none req now)⟩) := by
  simp [updateIssue.locked, updateIssue.assignee, updateIssue.status, huid, hst]

theorem locked_clear_status (issue : Issue) (req : UpdateIssueRequest) (now : Nat) (st : String)
    (huid : req.UserID = some 0) (hst : req.Status = some st)
    (hok : st = "PENDING" ∨ st = "CANCELLED") :
    updateIssue.locked issue req now =
      (updateIssue.fields { issue with Status := st } none req now,
        ⟨200, Body.issue (updateIssue.fields { issue with Status := st } none req now)⟩) := by
  have hv : isValidStatus st = true := (isValidStatus_iff st).mpr (by tauto)
  have hn : ¬ (st ≠ "PENDING" ∧ st ≠ "CANCELLED") := by tauto
  simp [updateIssue.locked, updateIssue.assignee, updateIssue.status, huid, hst, hv, hn]

theorem locked_clear_rejected (issue : Issue) (req : UpdateIssueRequest) (now : Nat) (st : String)
    (huid : req.UserID = some 0) (hst : req.Status = some st)
    (h1 : st ≠ "PENDING") (h2 : st ≠ "CANCELLED") :
    ∃ msg, updateIssue.locked issue req now =
      ({ issue with Status := "PENDING" }, respondWithError 400 msg) := by
  by_cases hv : isValidStatus st = false
  · exact ⟨"유효하지 않은 status",
      by simp [updateIssue.locked, updateIssue.assignee, updateIssue.status, huid, hst, hv]⟩
  · exact ⟨"담당자 없는 상태에서 PENDING 또는 CANCELLED 상태만 지정 가능",
      by simp [updateIssue.locked, updateIssue.assignee, updateIssue.status, huid, hst, hv, h1, h2]⟩

theorem locked_assign (issue : Issue) (req : UpdateIssueRequest) (now : Nat) (uid : Nat)
    (u : User) (huid : req.UserID = some uid) (h0 : uid ≠ 0) (hu : mapGet users uid = some u)
    (hst : req.Status = none) :
    updateIssue.locked issue req now =
      (updateIssue.fields
          (if issue.Status = "PENDING" then { issue with Status := "IN_PROGRESS" } else issue)
          (some u) req now,
        ⟨200, Body.issue (updateIssue.fields
          (if issue.Status = "PENDING" then { issue with Status := "IN_PROGRESS" } else issue)
          (some u) req now)⟩) := by
  by_cases hp : issue.Status = "PENDING" <;>
    simp [updateIssue.locked, updateIssue.assignee, updateIssue.status, huid, h0, hu, hst, hp]

theorem mapGet_users_ID (uid : Nat) (u : User) (h : mapGet users uid = some u) : u.ID = uid := by
  have hk := (mapGet_users_iff uid).mp ⟨u, h⟩
  rcases hk with hk | hk | hk <;> subst hk <;> simp [users, mapGet] at h <;> subst h <;> rfl

theorem locked_cases (issue : Issue) (req : UpdateIssueRequest) (now : Nat) :
    (∃ msg, updateIssue.locked issue req now = (issue, respondWithError 400 msg)) ∨
      (∃ msg, req.UserID = some 0 ∧ updateIssue.locked issue req now =
        ({ issue with Status := "PENDING" }, respondWithError 400 msg)) ∨
      (∃ status user, updateIssue.locked issue req now =
        (updateIssue.fields { issue with Status := status } user req now,
          ⟨200, Body.issue (updateIssue.fields { issue with Status := status } user req now)⟩)) := by
  cases huid : req.UserID with
  | none =>
    cases hst : req.Status with
    | none =>
      exact Or.inr (Or.inr ⟨issue.Status, issue.User,
        by simp [updateIssue.locked, updateIssue.assignee, updateIssue.status, huid, hst]⟩)
    | some st =>
      by_cases hv : isValidStatus st = false
      · exact Or.inl ⟨"유효하지 않은 status",
          by simp [updateIssue.locked, updateIssue.assignee, updateIssue.status, huid, hst, hv]⟩
      · by_cases hu : issue.User = none ∧ st ≠ "PENDING" ∧ st ≠ "CANCELLED"
        · exact Or.inl ⟨"담당자 없는 상태에서 PENDING 또는 CANCELLED 상태만 지정 가능",
            by simp [updateIssue.locked, updateIssue.assignee, updateIssue.status, huid, hst, hv, hu]⟩
        · refine Or.inr (Or.inr ⟨st, issue.User, ?_⟩)
          simp [updateIssue.locked, updateIssue.assignee, updateIssue.status, huid, hst, hv, hu]
  | some uid =>
    by_cases h0 : uid = 0
    · subst h0
      cases hst : req.Status with
      | none => exact Or.inr (Or.inr ⟨"PENDING", none, locked_clear issue req now huid hst⟩)
      | some st =>
        by_cases hok : st = "PENDING" ∨ st = "CANCELLED"
        · exact Or.inr (Or.inr ⟨st, none, locked_clear_status issue req now st huid hst hok⟩)
        · obtain ⟨msg, h⟩ := locked_clear_rejected issue req now st huid hst
            (fun h => hok (Or.inl h)) (fun h => hok (Or.inr h))
          exact Or.inr (Or.inl ⟨msg, rfl, h⟩)
    · cases hm : mapGet users uid with
      | none =>
        exact Or.inl ⟨"유효하지 않은 userId",
          by simp [updateIssue.locked, updateIssue.assignee, huid, h0, hm]⟩
      | some u =>
        cases hst : req.Status with
        | none =>
          by_cases hp : issue.Status = "PENDING"
          · refine Or.inr (Or.inr ⟨"IN_PROGRESS", some u, ?_⟩)
            rw [locked_assign issue req now uid u huid h0 hm hst]
            simp [hp]
          · refine Or.inr (Or.inr ⟨issue.Status, some u, ?_⟩)
            rw [locked_assign issue req now uid u huid h0 hm hst]
            simp [hp]
        | some st =>
          by_cases hv : isValidStatus st = false
          · exact Or.inl ⟨"유효하지 않은 status",
              by simp [updateIssue.locked, updateIssue.assignee, updateIssue.status, huid, h0, hm,
                hst, hv]⟩
          · refine Or.inr (Or.inr ⟨st, some u, ?_⟩)
            simp [updateIssue.locked, updateIssue.assignee, updateIssue.status, huid, h0, hm,
              hst, hv]

theorem locked_response (issue : Issue) (req : UpdateIssueRequest) (now : Nat) :
    (updateIssue.locked issue req now).2 =
        ⟨200, Body.issue (updateIssue.locked issue req now).1⟩ ∨
      ∃ msg, (updateIssue.locked issue req now).2 = respondWithError 400 msg := by
  rcases locked_cases issue req now with ⟨msg, h⟩ | ⟨msg, _, h⟩ | ⟨status, user, h⟩
  · right; exact ⟨msg, by rw [h]⟩
  · right; exact ⟨msg, by rw [h]⟩
  · left; rw [h]

theorem locked_ID (issue : Issue) (req : UpdateIssueRequest) (now : Nat) :
    (updateIssue.locked issue req now).1.ID = issue.ID := by
  rcases locked_cases issue req now with ⟨msg, h⟩ | ⟨msg, _, h⟩ | ⟨status, user, h⟩
  · rw [h]
  · rw [h]
  · rw [h, fields_eq]

theorem updateIssue_response (s : Store) (now : Nat) (idParsed : Option Int)
    (body : Option UpdateIssueRequest) :
    (∃ issue, (updateIssue s now idParsed body).2 = ⟨200, Body.issue issue⟩) ∨
      ∃ code msg, (code = 400 ∨ code = 403 ∨ code = 404) ∧
        (updateIssue s now idParsed body).2 = respondWithError code msg := by
  cases idParsed with
  | none => right; exact ⟨400, _, by simp, rfl⟩
  | some id =>
    by_cases hid : id ≤ 0
    · have h : updateIssue s now (some id) body = (s, respondWithError 400 "Invalid issue id") := by
        simp [updateIssue, hid]
      right; exact ⟨400, _, by simp, by rw [h]⟩
    · cases body with
      | none =>
        have h : updateIssue s now (some id) none =
            (s, respondWithError 400 "Invalid JSON body") := by
          simp [updateIssue, hid]
        right; exact ⟨400, _, by simp, by rw [h]⟩
      | some req =>
        cases hget : mapGet s.issues id.toNat with
        | none =>
          have h : updateIssue s now (some id) (some req) =
              (s, respondWithError 404 "Issue not found") := by
            simp [updateIssue, hid, hget]
          right; exact ⟨404, _, by simp, by rw [h]⟩
        | some issue =>
          by_cases hopen : issue.Status = "COMPLETED" ∨ issue.Status = "CANCELLED"
          · have h := (updateIssue_terminal s now id req issue (not_le.mp hid) hget hopen)
            right; exact ⟨403, _, by simp, by rw [h]⟩
          · rw [updateIssue_open s now id req issue (not_le.mp hid) hget hopen]
            rcases locked_response issue req now with h | ⟨msg, h⟩
            · left; exact ⟨_, h⟩
            · right; exact ⟨400, msg, by simp, h⟩

theorem updateIssue_error_store (s : Store) (now : Nat) (idParsed : Option Int)
    (body : Option UpdateIssueRequest) (herr : (updateIssue s now idParsed body).2.code ≠ 200) :
    (updateIssue s now idParsed body).1 = s ∨
      ∃ id req issue, idParsed = some id ∧ body = some req ∧ req.UserID = some 0 ∧
        mapGet s.issues id.toNat = some issue ∧
        (updateIssue s now idParsed body).1 =
          s.assign id.toNat { issue with Status := "PENDING" } := by
  rcases updateIssue_store_cases s now idParsed body with h | ⟨id, req, issue, hid, hi, hb, hget, hopen, _⟩
  · exact Or.inl h
  · subst hi; subst hb
    rw [updateIssue_open s now id req issue hid hget hopen] at herr ⊢
    rcases locked_cases issue req now with ⟨msg, h⟩ | ⟨msg, huid, h⟩ | ⟨status, user, h⟩
    · left
      rw [h]
      exact assign_of_mapGet s _ issue hget
    · right
      exact ⟨id, req, issue, rfl, rfl, huid, hget, by rw [h]⟩
    · rw [h] at herr
      exact absurd rfl herr

theorem updateIssue_issueIDSeq (s : Store) (now : Nat) (idParsed : Option Int)
    (body : Option UpdateIssueRequest) :
    (updateIssue s now idParsed body).1.issueIDSeq = s.issueIDSeq := by
  rcases updateIssue_store_cases s now idParsed body with h | ⟨_, _, _, _, _, _, _, _, h⟩
  · rw [h]
  · rw [h]; rfl

/-! ## Identifier allocation along a sequence of requests -/

theorem serve_createdID (s : Store) (c : Call) :
    (createdID (serve s c).2 = some s.issueIDSeq ∧
        (serve s c).1.issueIDSeq = (s.issueIDSeq + 1) % uintModulus) ∨
      (createdID (serve s c).2 = none ∧ (serve s c).1.issueIDSeq = s.issueIDSeq) := by
  cases c with
  | create now body =>
    rcases createIssue_cases s now body with ⟨h, msg, hr⟩ | ⟨req, user, status, _, _, _, h⟩
    · right
      refine ⟨?_, ?_⟩
      · simp [serve, hr, createdID, respondWithError]
      · simp [serve, h]
    · left
      refine ⟨?_, ?_⟩
      · simp [serve, h, createIssue_store_eq, createdID, createIssue.record]
      · simp [serve, h, createIssue_store_eq]
  | update now idParsed body =>
    right
    refine ⟨?_, updateIssue_issueIDSeq s now idParsed body⟩
    rcases updateIssue_response s now idParsed body with ⟨issue, h⟩ | ⟨code, msg, hc, h⟩
    · simp [serve, h, createdID]
    · simp only [serve, h, createdID, respondWithError]
      rcases hc with hc | hc | hc <;> subst hc <;> simp
  | getAll statusFilter =>
    right
    refine ⟨?_, by simp [serve, getAllIssues_store]⟩
    simp only [serve, getAllIssues]
    split <;> simp [createdID, respondWithError]
  | getByID idParsed =>
    right
    refine ⟨?_, by simp [serve, getIssueByID_store]⟩
    simp only [serve, getIssueByID]
    repeat' split
    all_goals simp [createdID, respondWithError]

theorem createdIDs_serveAll (calls : List Call) (s : Store)
    (hb : s.issueIDSeq + (createdIDs (serveAll s calls).2).length ≤ uintModulus) :
    createdIDs (serveAll s calls).2 =
      List.range' s.issueIDSeq (createdIDs (serveAll s calls).2).length := by
  induction calls generalizing s with
  | nil => simp [serveAll, createdIDs]
  | cons c cs ih =>
    have hstep : createdIDs (serveAll s (c :: cs)).2 =
        (match createdID (serve s c).2 with
          | some k => k :: createdIDs (serveAll (serve s c).1 cs).2
          | none => createdIDs (serveAll (serve s c).1 cs).2) := by
      simp only [serveAll, createdIDs, List.filterMap_cons]
      split <;> simp_all
    rw [hstep] at hb ⊢
    rcases serve_createdID s c with ⟨hc, hseq⟩ | ⟨hc, hseq⟩
    · rw [hc] at hb ⊢
      simp only [List.length_cons] at hb ⊢
      rw [List.range'_succ]
      congr 1
      by_cases hk : (createdIDs (serveAll (serve s c).1 cs).2).length = 0
      · rw [hk]
        simpa using hk
      · have hlt : s.issueIDSeq + 1 < uintModulus := by omega
        have hseq' : (serve s c).1.issueIDSeq = s.issueIDSeq + 1 := by
          rw [hseq, Nat.mod_eq_of_lt hlt]
        have := ih (serve s c).1 (by rw [hseq']; omega)
        rw [hseq'] at this
        exact this
    · rw [hc] at hb ⊢
      simp only at hb ⊢
      have := ih (serve s c).1 (by rw [hseq]; exact hb)
      rw [hseq] at this
      exact this

/-! ## Keys and identifiers -/

theorem keys_mapSet {β : Type} (m : List (Nat × β)) (k : Nat) (v : β) :
    (mapSet m k v).map Prod.fst =
      if k ∈ m.map Prod.fst then m.map Prod.fst else m.map Prod.fst ++ [k] := by
  induction m with
  | nil => simp [mapSet]
  | cons e rest ih =>
    obtain ⟨k0, v0⟩ := e
    by_cases h0 : k0 = k
    · subst h0
      simp [mapSet]
    · have h0' : ¬ k = k0 := fun h => h0 h.symm
      by_cases hk : k ∈ rest.map Prod.fst
      · simp only [mapSet, h0, if_false, List.map_cons, ih, hk, if_true, List.mem_cons, or_true]
      · simp only [mapSet, h0, if_false, List.map_cons, ih, hk, List.mem_cons, h0', or_self,
          List.cons_append]

theorem nodup_keys_mapSet {β : Type} (m : List (Nat × β)) (k : Nat) (v : β)
    (h : (m.map Prod.fst).Nodup) : ((mapSet m k v).map Prod.fst).Nodup := by
  rw [keys_mapSet]
  by_cases hk : k ∈ m.map Prod.fst
  · simpa [hk] using h
  · simp only [hk, if_false]
    rw [List.nodup_append]
    refine ⟨h, List.nodup_singleton k, ?_⟩
    intro a ha hb
    simp only [List.mem_singleton] at hb
    subst hb
    exact hk ha

theorem serve_wellKeyed (s : Store) (c : Call) (hs : s.wellKeyed) : (serve s c).1.wellKeyed := by
  cases c with
  | create now body =>
    rcases createIssue_cases s now body with ⟨h, _⟩ | ⟨req, user, status, _, _, _, h⟩
    · simp only [serve, h]; exact hs
    · simp only [serve, h, createIssue_store_eq]
      refine ⟨?_, nodup_keys_mapSet _ _ _ hs.2⟩
      intro e he
      rcases mem_mapSet _ _ _ e he with h' | h'
      · subst h'; rfl
      · exact hs.1 e h'
  | update now idParsed body =>
    rcases updateIssue_store_cases s now idParsed body with h | ⟨id, req, issue, _, _, _, hget, _, h⟩
    · simp only [serve, h]; exact hs
    · simp only [serve, h]
      refine ⟨?_, nodup_keys_mapSet _ _ _ hs.2⟩
      intro e he
      rcases mem_mapSet _ _ _ e he with h' | h'
      · subst h'
        simp only [locked_ID]
        exact hs.1 _ (mem_of_mapGet _ _ _ hget)
      · exact hs.1 e h'
  | getAll statusFilter => simp only [serve, getAllIssues_store]; exact hs
  | getByID idParsed => simp only [serve, getIssueByID_store]; exact hs

theorem mapGet_assign (s : Store) (k : Nat) (issue : Issue) :
    mapGet (s.assign k issue).issues k = some issue := by
  simp [Store.assign, mapGet_mapSet]

/-! ## Claims -/

/-- C1. Reachable-state invariant: in every store reached from the initial empty
store (`issueIDSeq = 1`) by a finite sequence of requests, whether they succeed
or fail, every stored issue without an assignee has status `PENDING` or
`CANCELLED`; this holds for every entry of the map and hence for every record
a lookup returns. -/
theorem C1_unassigned_is_pending_or_cancelled (calls : List Call) :
    (∀ e ∈ (serveAll initialStore calls).1.issues,
        e.2.User = none → e.2.Status = "PENDING" ∨ e.2.Status = "CANCELLED") ∧
      (∀ k issue, mapGet (serveAll initialStore calls).1.issues k = some issue →
        issue.User = none → issue.Status = "PENDING" ∨ issue.Status = "CANCELLED") := by
  have h : (serveAll initialStore calls).1.assigneeRule :=
    serveAll_invariant Store.assigneeRule serve_assigneeRule initialStore
      (by intro e he; simp [initialStore] at he) calls
  exact ⟨fun e he => h e he, fun k issue hget => h _ (mem_of_mapGet _ _ _ hget)⟩

/-- C2. Terminal-state guard: for every store, every positive id whose stored
issue has status `COMPLETED` or `CANCELLED`, and every decoded payload, the
update answers 403 with the forbidden error and returns the store unchanged, so
the lookup of that id still yields the same record. -/
theorem C2_terminal_issue_update_forbidden (s : Store) (now : Nat) (id : Int)
    (req : UpdateIssueRequest) (issue : Issue) (hid : 0 < id)
    (hget : mapGet s.issues id.toNat = some issue)
    (hterm : issue.Status = "COMPLETED" ∨ issue.Status = "CANCELLED") :
    updateIssue s now (some id) (some req) =
        (s, respondWithError 403 "Completed or cancelled issues cannot be updated") ∧
      (updateIssue s now (some id) (some req)).2.code = 403 ∧
      mapGet (updateIssue s now (some id) (some req)).1.issues id.toNat = some issue := by
  rw [updateIssue_terminal s now id req issue hid hget hterm]
  exact ⟨rfl, rfl, hget⟩

/-- C2 at a concrete input: a completed issue and a payload that carries a new
title, an invalid status and an unknown user. -/
theorem C2_terminal_issue_update_forbidden_witness :
    updateIssue (sampleStore "COMPLETED" (some userKim)) 9 (some 1)
          (some ⟨some "x", none, some "BOGUS", some 99⟩) =
        (sampleStore "COMPLETED" (some userKim),
          respondWithError 403 "Completed or cancelled issues cannot be updated") ∧
      (updateIssue (sampleStore "COMPLETED" (some userKim)) 9 (some 1)
          (some ⟨some "x", none, some "BOGUS", some 99⟩)).2.code = 403 ∧
      mapGet (updateIssue (sampleStore "COMPLETED" (some userKim)) 9 (some 1)
          (some ⟨some "x", none, some "BOGUS", some 99⟩)).1.issues (1 : Int).toNat =
        some (sampleIssue "COMPLETED" (some userKim)) :=
  C2_terminal_issue_update_forbidden (sampleStore "COMPLETED" (some userKim)) 9 1
    ⟨some "x", none, some "BOGUS", some 99⟩ (sampleIssue "COMPLETED" (some userKim))
    (by decide) (by decide) (by decide)

/-- C3. The update of an `IN_PROGRESS` issue assigned to user 1 with
`userId: 0` and status `BOGUS`, or with `userId: 0` and status `COMPLETED`, is
answered 400, and the store it leaves differs from the store before: the status
of the record has become `PENDING` while its assignee is still user 1.  The
store before is the one reached from the initial store by creating the issue
and assigning it to user 1. -/
theorem C3_rejected_update_leaves_status_changed :
    (serveAll initialStore
        [Call.create 5 (some ⟨"bug", none, none⟩),
          Call.update 6 (some 1) (some ⟨none, none, none, some 1⟩)]).1 =
        sampleStore "IN_PROGRESS" (some userKim) ∧
      updateIssue (sampleStore "IN_PROGRESS" (some userKim)) 9 (some 1)
          (some ⟨none, none, some "BOGUS", some 0⟩) =
        (sampleStore "PENDING" (some userKim), respondWithError 400 "유효하지 않은 status") ∧
      updateIssue (sampleStore "IN_PROGRESS" (some userKim)) 9 (some 1)
          (some ⟨none, none, some "COMPLETED", some 0⟩) =
        (sampleStore "PENDING" (some userKim), respondWithError 400
          "담당자 없는 상태에서 PENDING 또는 CANCELLED 상태만 지정 가능") ∧
      sampleStore "PENDING" (some userKim) ≠ sampleStore "IN_PROGRESS" (some userKim) ∧
      mapGet (sampleStore "PENDING" (some userKim)).issues 1 ≠
        mapGet (sampleStore "IN_PROGRESS" (some userKim)).issues 1 := by
  decide

/-- C4, as stated, fails: clearing the assignee of an `IN_PROGRESS` issue with
`userId: 0` together with status `CANCELLED` succeeds and stores status
`CANCELLED`, not `PENDING`; and together with status `COMPLETED` it is
answered 400 and the stored record still has its assignee. -/
theorem C4_clear_assignee_counterexample :
    (updateIssue (sampleStore "IN_PROGRESS" (some userKim)) 9 (some 1)
        (some ⟨none, none, some "CANCELLED", some 0⟩)).2.code = 200 ∧
      (∃ issue, mapGet (updateIssue (sampleStore "IN_PROGRESS" (some userKim)) 9 (some 1)
          (some ⟨none, none, some "CANCELLED", some 0⟩)).1.issues 1 = some issue ∧
        issue.User = none ∧ issue.Status = "CANCELLED" ∧ issue.Status ≠ "PENDING") ∧
      (updateIssue (sampleStore "IN_PROGRESS" (some userKim)) 9 (some 1)
        (some ⟨none, none, some "COMPLETED", some 0⟩)).2.code = 400 ∧
      (∃ issue, mapGet (updateIssue (sampleStore "IN_PROGRESS" (some userKim)) 9 (some 1)
          (some ⟨none, none, some "COMPLETED", some 0⟩)).1.issues 1 = some issue ∧
        issue.User ≠ none) := by
  refine ⟨by decide, ⟨⟨1, "bug", "", "CANCELLED", none, 5, 9⟩, by decide⟩, by decide,
    ⟨sampleIssue "PENDING" (some userKim), by decide⟩⟩

/-- C4, amended. For every non-terminal stored issue and every payload with
`userId: 0`: when the status field is absent or `PENDING` the update succeeds
and the stored issue has no assignee and status `PENDING`; when the status
field is `CANCELLED` the update succeeds and the stored issue has no assignee
and status `CANCELLED`; for every other status field the update is answered
400 with an error body. -/
theorem C4_clear_assignee (s : Store) (now : Nat) (id : Int) (req : UpdateIssueRequest)
    (issue : Issue) (hid : 0 < id) (hget : mapGet s.issues id.toNat = some issue)
    (hopen : ¬ (issue.Status = "COMPLETED" ∨ issue.Status = "CANCELLED"))
    (huid : req.UserID = some 0) :
    (req.Status = none ∨ req.Status = some "PENDING" →
        ∃ issue', updateIssue s now (some id) (some req) =
            (s.assign id.toNat issue', ⟨200, Body.issue issue'⟩) ∧
          mapGet (updateIssue s now (some id) (some req)).1.issues id.toNat = some issue' ∧
          issue'.User = none ∧ issue'.Status = "PENDING") ∧
      (req.Status = some "CANCELLED" →
        ∃ issue', updateIssue s now (some id) (some req) =
            (s.assign id.toNat issue', ⟨200, Body.issue issue'⟩) ∧
          mapGet (updateIssue s now (some id) (some req)).1.issues id.toNat = some issue' ∧
          issue'.User = none ∧ issue'.Status = "CANCELLED") ∧
      (∀ st, req.Status = some st → st ≠ "PENDING" → st ≠ "CANCELLED" →
        ∃ msg, (updateIssue s now (some id) (some req)).2 = respondWithError 400 msg) := by
  rw [updateIssue_open s now id req issue hid hget hopen]
  refine ⟨?_, ?_, ?_⟩
  · intro hst
    rcases hst with hst | hst
    · rw [locked_clear issue req now huid hst]
      exact ⟨_, rfl, mapGet_assign _ _ _, by simp [fields_eq]⟩
    · rw [locked_clear_status issue req now "PENDING" huid hst (Or.inl rfl)]
      exact ⟨_, rfl, mapGet_assign _ _ _, by simp [fields_eq]⟩
  · intro hst
    rw [locked_clear_status issue req now "CANCELLED" huid hst (Or.inr rfl)]
    exact ⟨_, rfl, mapGet_assign _ _ _, by simp [fields_eq]⟩
  · intro st hst h1 h2
    obtain ⟨msg, h⟩ := locked_clear_rejected issue req now st huid hst h1 h2
    exact ⟨msg, by rw [h]⟩

/-- C4 (amended) at a concrete input: an `IN_PROGRESS` issue assigned to user 1
and the payload `userId: 0` with status `CANCELLED`. -/
theorem C4_clear_assignee_witness :
    ∃ issue', updateIssue (sampleStore "IN_PROGRESS" (some userKim)) 9 (some 1)
          (some ⟨none, none, some "CANCELLED", some 0⟩) =
        ((sampleStore "IN_PROGRESS" (some userKim)).assign (1 : Int).toNat issue',
          ⟨200, Body.issue issue'⟩) ∧
      mapGet (updateIssue (sampleStore "IN_PROGRESS" (some userKim)) 9 (some 1)
          (some ⟨none, none, some "CANCELLED", some 0⟩)).1.issues (1 : Int).toNat =
        some issue' ∧
      issue'.User = none ∧ issue'.Status = "CANCELLED" :=
  (C4_clear_assignee (sampleStore "IN_PROGRESS" (some userKim)) 9 1
    ⟨none, none, some "CANCELLED", some 0⟩ (sampleIssue "IN_PROGRESS" (some userKim))
    (by decide) (by decide) (by decide) rfl).2.1 rfl

/-- C5. Auto-advance on assignment: for every stored issue whose status is
`PENDING` or `IN_PROGRESS` and every payload whose `userId` is 1, 2 or 3 and
whose status field is absent, the update answers 200 with the stored record,
whose assignee is that user of the directory and whose status is
`IN_PROGRESS`: advanced from `PENDING`, or left as it was.  Apart from the
assignee and the status the record differs from the one before only in the
title and description the payload supplies and in its update time. -/
theorem C5_assignment_advances_pending (s : Store) (now : Nat) (id : Int)
    (req : UpdateIssueRequest) (issue : Issue) (uid : Nat) (hid : 0 < id)
    (hget : mapGet s.issues id.toNat = some issue)
    (hcur : issue.Status = "PENDING" ∨ issue.Status = "IN_PROGRESS")
    (huid : req.UserID = some uid) (hknown : uid = 1 ∨ uid = 2 ∨ uid = 3)
    (hst : req.Status = none) :
    ∃ u issue', mapGet users uid = some u ∧ u.ID = uid ∧
      updateIssue s now (some id) (some req) =
        (s.assign id.toNat issue', ⟨200, Body.issue issue'⟩) ∧
      mapGet (updateIssue s now (some id) (some req)).1.issues id.toNat = some issue' ∧
      issue'.User = some u ∧ issue'.Status = "IN_PROGRESS" ∧
      issue' = { issue with
        Title := req.Title.getD issue.Title,
        Description := req.Description.getD issue.Description,
        Status := "IN_PROGRESS", User := some u, UpdatedAt := now } := by
  obtain ⟨u, hu⟩ := (mapGet_users_iff uid).mpr hknown
  have h0 : uid ≠ 0 := by omega
  have hopen : ¬ (issue.Status = "COMPLETED" ∨ issue.Status = "CANCELLED") := by
    rcases hcur with h | h <;> rw [h] <;> decide
  rw [updateIssue_open s now id req issue hid hget hopen,
    locked_assign issue req now uid u huid h0 hu hst]
  refine ⟨u, _, hu, mapGet_users_ID uid u hu, rfl, mapGet_assign _ _ _, ?_⟩
  rcases hcur with h | h
  · simp [fields_eq, h]
  · have hp : issue.Status ≠ "PENDING" := by rw [h]; decide
    simp [fields_eq, h, hp]

/-- C5 at a concrete input: an unassigned `PENDING` issue receives `userId: 2`. -/
theorem C5_assignment_advances_pending_witness :
    ∃ u issue', mapGet users 2 = some u ∧ u.ID = 2 ∧
      updateIssue (sampleStore "PENDING" none) 9 (some 1) (some ⟨none, none, none, some 2⟩) =
        ((sampleStore "PENDING" none).assign (1 : Int).toNat issue',
          ⟨200, Body.issue issue'⟩) ∧
      mapGet (updateIssue (sampleStore "PENDING" none) 9 (some 1)
          (some ⟨none, none, none, some 2⟩)).1.issues (1 : Int).toNat = some issue' ∧
      issue'.User = some u ∧ issue'.Status = "IN_PROGRESS" ∧
      issue' = { sampleIssue "PENDING" none with
        Title := (none : Option String).getD (sampleIssue "PENDING" none).Title,
        Description := (none : Option String).getD (sampleIssue "PENDING" none).Description,
        Status := "IN_PROGRESS", User := some u, UpdatedAt := 9 } :=
  C5_assignment_advances_pending (sampleStore "PENDING" none) 9 1 ⟨none, none, none, some 2⟩
    (sampleIssue "PENDING" none) 2 (by decide) (by decide) (by decide) rfl (by decide) rfl

/-- C6. Initial status on create: for every non-empty title and optional
description, a create whose `userId` is 1, 2 or 3 answers 201 with a record of
status `IN_PROGRESS` assigned to that user, and a create without `userId`
answers 201 with a record of status `PENDING` and no assignee; in both cases
the record has the given title, the given description or the empty string, both
timestamps equal to the time of the call, and is stored under its id. -/
theorem C6_create_initial_status (s : Store) (now : Nat) (req : CreateIssueRequest)
    (htitle : req.Title ≠ "") :
    (∀ uid, req.UserID = some uid → uid = 1 ∨ uid = 2 ∨ uid = 3 →
        ∃ u r, mapGet users uid = some u ∧ u.ID = uid ∧
          (createIssue s now (some req)).2 = ⟨201, Body.issue r⟩ ∧
          r.Status = "IN_PROGRESS" ∧ r.User = some u ∧ r.Title = req.Title ∧
          r.Description = req.Description.getD "" ∧ r.CreatedAt = now ∧
          r.CreatedAt = r.UpdatedAt ∧
          mapGet (createIssue s now (some req)).1.issues r.ID = some r) ∧
      (req.UserID = none →
        ∃ r, (createIssue s now (some req)).2 = ⟨201, Body.issue r⟩ ∧
          r.Status = "PENDING" ∧ r.User = none ∧ r.Title = req.Title ∧
          r.Description = req.Description.getD "" ∧ r.CreatedAt = now ∧
          r.CreatedAt = r.UpdatedAt ∧
          mapGet (createIssue s now (some req)).1.issues r.ID = some r) := by
  constructor
  · intro uid huid hknown
    obtain ⟨u, hu⟩ := (mapGet_users_iff uid).mpr hknown
    have h : createIssue s now (some req) = createIssue.store s now req (some u) "IN_PROGRESS" := by
      simp [createIssue, htitle, huid, hu]
    rw [h, createIssue_store_eq]
    exact ⟨u, _, hu, mapGet_users_ID uid u hu, rfl, rfl, rfl, rfl, rfl, rfl, rfl,
      by simp [createIssue.record, mapGet_mapSet]⟩
  · intro huid
    have h : createIssue s now (some req) = createIssue.store s now req none "PENDING" := by
      simp [createIssue, htitle, huid]
    rw [h, createIssue_store_eq]
    exact ⟨_, rfl, rfl, rfl, rfl, rfl, rfl, rfl, by simp [createIssue.record, mapGet_mapSet]⟩

/-- C6 at a concrete input: a create with a title, a description and `userId: 3`
on the initial store. -/
theorem C6_create_initial_status_witness :
    ∃ u r, mapGet users 3 = some u ∧ u.ID = 3 ∧
      (createIssue initialStore 5 (some ⟨"bug", some "it crashes", some 3⟩)).2 =
        ⟨201, Body.issue r⟩ ∧
      r.Status = "IN_PROGRESS" ∧ r.User = some u ∧ r.Title = "bug" ∧
      r.Description = (some "it crashes").getD "" ∧ r.CreatedAt = 5 ∧
      r.CreatedAt = r.UpdatedAt ∧
      mapGet (createIssue initialStore 5 (some ⟨"bug", some "it crashes", some 3⟩)).1.issues
        r.ID = some r :=
  (C6_create_initial_status initialStore 5 ⟨"bug", some "it crashes", some 3⟩ (by decide)).1
    3 rfl (by decide)

/-- C7. Create with an unknown assignee: for every store, every title and
every supplied `userId` other than 1, 2 and 3, the create answers 400 with an
error body (the invalid-userId error when the title is non-empty), the issue
map and the identifier counter are unchanged, and any create that follows
behaves exactly as it would have on the store before. -/
theorem C7_create_unknown_user_rejected (s : Store) (now : Nat) (req : CreateIssueRequest)
    (uid : Nat) (huid : req.UserID = some uid) (hunknown : uid ≠ 1 ∧ uid ≠ 2 ∧ uid ≠ 3) :
    (createIssue s now (some req)).2.code = 400 ∧
      (∃ msg, (createIssue s now (some req)).2 = respondWithError 400 msg) ∧
      (req.Title ≠ "" →
        (createIssue s now (some req)).2 = respondWithError 400 "유효하지 않은 userId") ∧
      (createIssue s now (some req)).1.issues = s.issues ∧
      (createIssue s now (some req)).1.issueIDSeq = s.issueIDSeq ∧
      (∀ now' body', createIssue (createIssue s now (some req)).1 now' body' =
        createIssue s now' body') := by
  have hu : mapGet users uid = none := by
    cases h : mapGet users uid with
    | none => rfl
    | some u =>
      have := (mapGet_users_iff uid).mp ⟨u, h⟩
      omega
  by_cases ht : req.Title = ""
  · have h : createIssue s now (some req) = (s, respondWithError 400 "필수 필드 title 누락") := by
      simp [createIssue, ht]
    rw [h]
    exact ⟨rfl, ⟨_, rfl⟩, fun hne => absurd ht hne, rfl, rfl, fun _ _ => rfl⟩
  · have h : createIssue s now (some req) = (s, respondWithError 400 "유효하지 않은 userId") := by
      simp [createIssue, ht, huid, hu]
    rw [h]
    exact ⟨rfl, ⟨_, rfl⟩, fun _ => rfl, rfl, rfl, fun _ _ => rfl⟩

/-- C7 at a concrete input: `title: t` with `userId: 99` on a store that holds
one issue. -/
theorem C7_create_unknown_user_rejected_witness :
    (createIssue (sampleStore "PENDING" none) 9 (some ⟨"t", none, some 99⟩)).2.code = 400 ∧
      (∃ msg, (createIssue (sampleStore "PENDING" none) 9 (some ⟨"t", none, some 99⟩)).2 =
        respondWithError 400 msg) ∧
      ("t" ≠ "" →
        (createIssue (sampleStore "PENDING" none) 9 (some ⟨"t", none, some 99⟩)).2 =
          respondWithError 400 "유효하지 않은 userId") ∧
      (createIssue (sampleStore "PENDING" none) 9 (some ⟨"t", none, some 99⟩)).1.issues =
        (sampleStore "PENDING" none).issues ∧
      (createIssue (sampleStore "PENDING" none) 9 (some ⟨"t", none, some 99⟩)).1.issueIDSeq =
        (sampleStore "PENDING" none).issueIDSeq ∧
      (∀ now' body',
        createIssue (createIssue (sampleStore "PENDING" none) 9
          (some ⟨"t", none, some 99⟩)).1 now' body' =
        createIssue (sampleStore "PENDING" none) now' body') :=
  C7_create_unknown_user_rejected (sampleStore "PENDING" none) 9 ⟨"t", none, some 99⟩ 99 rfl
    (by decide)

/-- C8. Create with an empty title: for every store, description and `userId`,
a create whose title is empty answers 400 with the missing-title error and
leaves the issue map and the identifier counter unchanged; and whatever the
title, a create either leaves the store unchanged or inserts, under the current
counter, a record whose title is the non-empty title of the request. -/
theorem C8_create_empty_title_rejected (s : Store) (now : Nat) (req : CreateIssueRequest) :
    (req.Title = "" →
        createIssue s now (some req) = (s, respondWithError 400 "필수 필드 title 누락") ∧
        (createIssue s now (some req)).2.code = 400 ∧
        (createIssue s now (some req)).1.issues = s.issues ∧
        (createIssue s now (some req)).1.issueIDSeq = s.issueIDSeq) ∧
      ((createIssue s now (some req)).1 = s ∨
        (req.Title ≠ "" ∧ ∃ r, r.Title = req.Title ∧
          (createIssue s now (some req)).2 = ⟨201, Body.issue r⟩ ∧
          (createIssue s now (some req)).1.issues = mapSet s.issues s.issueIDSeq r)) := by
  constructor
  · intro ht
    have h : createIssue s now (some req) = (s, respondWithError 400 "필수 필드 title 누락") := by
      simp [createIssue, ht]
    rw [h]
    exact ⟨rfl, rfl, rfl, rfl⟩
  · rcases createIssue_cases s now (some req) with ⟨h, _⟩ | ⟨req', user, status, hb, ht, _, h⟩
    · exact Or.inl h
    · cases hb
      right
      rw [h, createIssue_store_eq]
      exact ⟨ht, _, rfl, rfl, rfl⟩

/-- C8 at a concrete input: an empty title with a description and a known user. -/
theorem C8_create_empty_title_rejected_witness :
    createIssue (sampleStore "PENDING" none) 9 (some ⟨"", some "d", some 1⟩) =
        (sampleStore "PENDING" none, respondWithError 400 "필수 필드 title 누락") ∧
      (createIssue (sampleStore "PENDING" none) 9 (some ⟨"", some "d", some 1⟩)).2.code = 400 ∧
      (createIssue (sampleStore "PENDING" none) 9 (some ⟨"", some "d", some 1⟩)).1.issues =
        (sampleStore "PENDING" none).issues ∧
      (createIssue (sampleStore "PENDING" none) 9 (some ⟨"", some "d", some 1⟩)).1.issueIDSeq =
        (sampleStore "PENDING" none).issueIDSeq :=
  (C8_create_empty_title_rejected (sampleStore "PENDING" none) 9 ⟨"", some "d", some 1⟩).1 rfl

/-- C9. Identifier allocation: in any sequence of requests served from the
initial store in which fewer than `2 ^ 64` creates succeed, the identifiers
returned by the successful creates are 1, 2, 3, ... in request order, whatever
failing creates, updates and reads are interleaved: the n-th one is n, and
they are strictly increasing.  In the store reached (with no condition on the
number of creates) every issue is stored under a key equal to its own `ID`, and
the identifiers of the stored issues are pairwise distinct. -/
theorem C9_identifier_allocation (calls : List Call) :
    ((createdIDs (serveAll initialStore calls).2).length < uintModulus →
        createdIDs (serveAll initialStore calls).2 =
          List.range' 1 (createdIDs (serveAll initialStore calls).2).length ∧
        (∀ n, n < (createdIDs (serveAll initialStore calls).2).length →
          (createdIDs (serveAll initialStore calls).2)[n]? = some (n + 1)) ∧
        (createdIDs (serveAll initialStore calls).2).Pairwise (· < ·)) ∧
      (∀ e ∈ (serveAll initialStore calls).1.issues, e.2.ID = e.1) ∧
      ((serveAll initialStore calls).1.issues.map (fun e => e.2.ID)).Nodup := by
  have hk : (serveAll initialStore calls).1.wellKeyed :=
    serveAll_invariant Store.wellKeyed serve_wellKeyed initialStore
      ⟨by intro e he; simp [initialStore] at he, by simp [initialStore]⟩ calls
  refine ⟨?_, hk.1, ?_⟩
  · intro hbound
    have hseq : initialStore.issueIDSeq = 1 := rfl
    have h := createdIDs_serveAll calls initialStore (by rw [hseq]; omega)
    rw [hseq] at h
    refine ⟨h, ?_, ?_⟩
    · intro n hn
      rw [h, List.getElem?_range' 1 1 hn]
      simp [Nat.add_comm]
    · rw [h]
      exact List.pairwise_lt_range' 1 _
  · have hmap : (serveAll initialStore calls).1.issues.map (fun e => e.2.ID) =
        (serveAll initialStore calls).1.issues.map Prod.fst :=
      List.map_congr_left (fun e he => hk.1 e he)
    rw [hmap]
    exact hk.2

/-- C9 at a concrete sequence: a create, a create rejected for its unknown user,
an update, a create rejected for its empty title, a failing update of an
absent issue, and two more creates. -/
theorem C9_identifier_allocation_witness :
    createdIDs (serveAll initialStore
        [Call.create 1 (some ⟨"a", none, none⟩), Call.create 2 (some ⟨"b", none, some 99⟩),
          Call.update 3 (some 1) (some ⟨none, none, none, some 1⟩),
          Call.create 4 (some ⟨"", none, none⟩),
          Call.update 5 (some 7) (some ⟨some "x", none, none, none⟩),
          Call.create 6 (some ⟨"c", some "d", some 2⟩),
          Call.create 7 (some ⟨"e", none, none⟩)]).2 =
      List.range' 1 (createdIDs (serveAll initialStore
        [Call.create 1 (some ⟨"a", none, none⟩), Call.create 2 (some ⟨"b", none, some 99⟩),
          Call.update 3 (some 1) (some ⟨none, none, none, some 1⟩),
          Call.create 4 (some ⟨"", none, none⟩),
          Call.update 5 (some 7) (some ⟨some "x", none, none, none⟩),
          Call.create 6 (some ⟨"c", some "d", some 2⟩),
          Call.create 7 (some ⟨"e", none, none⟩)]).2).length :=
  ((C9_identifier_allocation
        [Call.create 1 (some ⟨"a", none, none⟩), Call.create 2 (some ⟨"b", none, some 99⟩),
          Call.update 3 (some 1) (some ⟨none, none, none, some 1⟩),
          Call.create 4 (some ⟨"", none, none⟩),
          Call.update 5 (some 7) (some ⟨some "x", none, none, none⟩),
          Call.create 6 (some ⟨"c", some "d", some 2⟩),
          Call.create 7 (some ⟨"e", none, none⟩)]).1 (by decide)).1

/-- C10. Unassigned issues cannot be advanced: for every stored non-terminal
issue with no assignee and every payload without `userId` whose status field is
`IN_PROGRESS` or `COMPLETED`, the update answers 400 with the validation error
and returns the store unchanged: the lookup still yields the same record, with
no assignee, and with status `PENDING` whenever the record obeyed the assignee
rule (as every reachable record does). -/
theorem C10_unassigned_cannot_advance (s : Store) (now : Nat) (id : Int)
    (req : UpdateIssueRequest) (issue : Issue) (st : String) (hid : 0 < id)
    (hget : mapGet s.issues id.toNat = some issue)
    (hopen : ¬ (issue.Status = "COMPLETED" ∨ issue.Status = "CANCELLED"))
    (huser : issue.User = none) (huid : req.UserID = none) (hst : req.Status = some st)
    (hadv : st = "IN_PROGRESS" ∨ st = "COMPLETED") :
    updateIssue s now (some id) (some req) =
        (s, respondWithError 400
          "담당자 없는 상태에서 PENDING 또는 CANCELLED 상태만 지정 가능") ∧
      (updateIssue s now (some id) (some req)).2.code = 400 ∧
      (∃ issue', mapGet (updateIssue s now (some id) (some req)).1.issues id.toNat = some issue' ∧
        issue' = issue ∧ issue'.User = none ∧
        (issue.assigneeRule → issue'.Status = "PENDING")) := by
  have hv : isValidStatus st = true := (isValidStatus_iff st).mpr (by tauto)
  have h1 : st ≠ "PENDING" := by rcases hadv with h | h <;> rw [h] <;> decide
  have h2 : st ≠ "CANCELLED" := by rcases hadv with h | h <;> rw [h] <;> decide
  have hl : updateIssue.locked issue req now =
      (issue, respondWithError 400
        "담당자 없는 상태에서 PENDING 또는 CANCELLED 상태만 지정 가능") := by
    simp [updateIssue.locked, updateIssue.assignee, updateIssue.status, huid, hst, hv, huser,
      h1, h2]
  rw [updateIssue_open s now id req issue hid hget hopen, hl, assign_of_mapGet s _ issue hget]
  refine ⟨rfl, rfl, issue, hget, rfl, huser, ?_⟩
  intro hrule
  rcases hrule huser with h | h
  · exact h
  · exact absurd (Or.inr h) hopen

/-- C10 at a concrete input: an unassigned `PENDING` issue and the payload
status `COMPLETED`. -/
theorem C10_unassigned_cannot_advance_witness :
    updateIssue (sampleStore "PENDING" none) 9 (some 1)
          (some ⟨none, none, some "COMPLETED", none⟩) =
        (sampleStore "PENDING" none, respondWithError 400
          "담당자 없는 상태에서 PENDING 또는 CANCELLED 상태만 지정 가능") ∧
      (updateIssue (sampleStore "PENDING" none) 9 (some 1)
          (some ⟨none, none, some "COMPLETED", none⟩)).2.code = 400 ∧
      (∃ issue', mapGet (updateIssue (sampleStore "PENDING" none) 9 (some 1)
            (some ⟨none, none, some "COMPLETED", none⟩)).1.issues (1 : Int).toNat =
          some issue' ∧
        issue' = sampleIssue "PENDING" none ∧ issue'.User = none ∧
        ((sampleIssue "PENDING" none).assigneeRule → issue'.Status = "PENDING")) :=
  C10_unassigned_cannot_advance (sampleStore "PENDING" none) 9 1
    ⟨none, none, some "COMPLETED", none⟩ (sampleIssue "PENDING" none) "COMPLETED"
    (by decide) (by decide) (by decide) rfl rfl rfl (by decide)

/-! ## The status block of the update handler -/

theorem locked_status_invalid (issue : Issue) (req : UpdateIssueRequest) (now : Nat)
    (st : String) (hst : req.Status = some st) (hv : isValidStatus st = false)
    (huid : req.UserID = none ∨ ∃ uid u, req.UserID = some uid ∧ uid ≠ 0 ∧
      mapGet users uid = some u) :
    updateIssue.locked issue req now = (issue, respondWithError 400 "유효하지 않은 status") := by
  rcases huid with huid | ⟨uid, u, huid, h0, hu⟩
  · simp [updateIssue.locked, updateIssue.assignee, updateIssue.status, huid, hst, hv]
  · simp [updateIssue.locked, updateIssue.assignee, updateIssue.status, huid, hst, hv, h0, hu]

theorem locked_status_kept_user (issue : Issue) (req : UpdateIssueRequest) (now : Nat)
    (st : String) (huid : req.UserID = none) (hst : req.Status = some st)
    (hv : isValidStatus st = true)
    (hok : ¬ (issue.User = none ∧ st ≠ "PENDING" ∧ st ≠ "CANCELLED")) :
    updateIssue.locked issue req now =
      (updateIssue.fields { issue with Status := st } issue.User req now,
        ⟨200, Body.issue (updateIssue.fields { issue with Status := st } issue.User req now)⟩) := by
  simp [updateIssue.locked, updateIssue.assignee, updateIssue.status, huid, hst, hv, hok]

theorem locked_status_rejected (issue : Issue) (req : UpdateIssueRequest) (now : Nat)
    (st : String) (huid : req.UserID = none) (hst : req.Status = some st)
    (hv : isValidStatus st = true)
    (hbad : issue.User = none ∧ st ≠ "PENDING" ∧ st ≠ "CANCELLED") :
    updateIssue.locked issue req now =
      (issue, respondWithError 400
        "담당자 없는 상태에서 PENDING 또는 CANCELLED 상태만 지정 가능") := by
  simp [updateIssue.locked, updateIssue.assignee, updateIssue.status, huid, hst, hv, hbad]

theorem locked_status_new_user (issue : Issue) (req : UpdateIssueRequest) (now : Nat)
    (st : String) (uid : Nat) (u : User) (huid : req.UserID = some uid) (h0 : uid ≠ 0)
    (hu : mapGet users uid = some u) (hst : req.Status = some st)
    (hv : isValidStatus st = true) :
    updateIssue.locked issue req now =
      (updateIssue.fields { issue with Status := st } (some u) req now,
        ⟨200, Body.issue (updateIssue.fields { issue with Status := st } (some u) req now)⟩) := by
  simp [updateIssue.locked, updateIssue.assignee, updateIssue.status, huid, hst, hv, h0, hu]

theorem isValidStatus_eq_false (st : String)
    (h : ¬ (st = "PENDING" ∨ st = "IN_PROGRESS" ∨ st = "COMPLETED" ∨ st = "CANCELLED")) :
    isValidStatus st = false := by
  cases hv : isValidStatus st with
  | false => rfl
  | true => exact absurd ((isValidStatus_iff st).mp hv) h

/-- C11. Requested status is validated, then applied: for every stored
non-terminal issue and every payload that carries a status `st` and whose
`userId` is absent or 1, 2 or 3: when `st` is none of the four status values
the update answers 400 with the invalid-status error and returns the store
unchanged; when `st` is one of the four and the effective assignee (the
requested user, else the current assignee) is present or `st` is `PENDING` or
`CANCELLED`, the update answers 200 with the stored record, whose status is
exactly `st` and whose assignee is the effective assignee. -/
theorem C11_requested_status_applied (s : Store) (now : Nat) (id : Int)
    (req : UpdateIssueRequest) (issue : Issue) (st : String) (hid : 0 < id)
    (hget : mapGet s.issues id.toNat = some issue)
    (hopen : ¬ (issue.Status = "COMPLETED" ∨ issue.Status = "CANCELLED"))
    (hst : req.Status = some st)
    (huid : req.UserID = none ∨ ∃ uid, req.UserID = some uid ∧ (uid = 1 ∨ uid = 2 ∨ uid = 3)) :
    (¬ (st = "PENDING" ∨ st = "IN_PROGRESS" ∨ st = "COMPLETED" ∨ st = "CANCELLED") →
        updateIssue s now (some id) (some req) =
          (s, respondWithError 400 "유효하지 않은 status")) ∧
      ((st = "PENDING" ∨ st = "IN_PROGRESS" ∨ st = "COMPLETED" ∨ st = "CANCELLED") →
        ((match req.UserID with
            | some uid => mapGet users uid
            | none => issue.User) ≠ none ∨ st = "PENDING" ∨ st = "CANCELLED") →
        ∃ issue', updateIssue s now (some id) (some req) =
            (s.assign id.toNat issue', ⟨200, Body.issue issue'⟩) ∧
          mapGet (updateIssue s now (some id) (some req)).1.issues id.toNat = some issue' ∧
          issue'.Status = st ∧
          issue'.User = (match req.UserID with
            | some uid => mapGet users uid
            | none => issue.User)) := by
  rw [updateIssue_open s now id req issue hid hget hopen]
  have huid' : req.UserID = none ∨ ∃ uid u, req.UserID = some uid ∧ uid ≠ 0 ∧
      mapGet users uid = some u := by
    rcases huid with h | ⟨uid, h, hk⟩
    · exact Or.inl h
    · obtain ⟨u, hu⟩ := (mapGet_users_iff uid).mpr hk
      exact Or.inr ⟨uid, u, h, by omega, hu⟩
  constructor
  · intro hbad
    rw [locked_status_invalid issue req now st hst (isValidStatus_eq_false st hbad) huid',
      assign_of_mapGet s _ issue hget]
  · intro hgood heff
    have hv : isValidStatus st = true := (isValidStatus_iff st).mpr hgood
    rcases huid' with h | ⟨uid, u, h, h0, hu⟩
    · rw [h] at heff ⊢
      simp only at heff ⊢
      have hok : ¬ (issue.User = none ∧ st ≠ "PENDING" ∧ st ≠ "CANCELLED") := by tauto
      rw [locked_status_kept_user issue req now st h hst hv hok]
      exact ⟨_, rfl, mapGet_assign _ _ _, by simp [fields_eq], by simp [fields_eq]⟩
    · rw [h]
      simp only
      rw [locked_status_new_user issue req now st uid u h h0 hu hst hv]
      exact ⟨_, rfl, mapGet_assign _ _ _, by simp [fields_eq], by simp [fields_eq, hu]⟩

/-- C11 at a concrete input: an `IN_PROGRESS` issue assigned to user 1 receives
the status `COMPLETED` without a `userId`. -/
theorem C11_requested_status_applied_witness :
    ∃ issue', updateIssue (sampleStore "IN_PROGRESS" (some userKim)) 9 (some 1)
          (some ⟨none, none, some "COMPLETED", none⟩) =
        ((sampleStore "IN_PROGRESS" (some userKim)).assign (1 : Int).toNat issue',
          ⟨200, Body.issue issue'⟩) ∧
      mapGet (updateIssue (sampleStore "IN_PROGRESS" (some userKim)) 9 (some 1)
          (some ⟨none, none, some "COMPLETED", none⟩)).1.issues (1 : Int).toNat =
        some issue' ∧
      issue'.Status = "COMPLETED" ∧
      issue'.User = (match (none : Option Nat) with
        | some uid => mapGet users uid
        | none => (sampleIssue "IN_PROGRESS" (some userKim)).User) :=
  (C11_requested_status_applied (sampleStore "IN_PROGRESS" (some userKim)) 9 1
    ⟨none, none, some "COMPLETED", none⟩ (sampleIssue "IN_PROGRESS" (some userKim))
    "COMPLETED" (by decide) (by decide) (by decide) rfl (Or.inl rfl)).2
    (by decide) (by decide)

/-- C12. Detail view: for every store and every integer id, `getIssueByID`
answers 400 with the invalid-id error when `id ≤ 0`, 404 with the not-found
error when `0 < id` and no issue is stored under `id`, and otherwise 200 with
exactly the `ID`, `Title`, `Description`, `Status`, `CreatedAt` and `UpdatedAt`
of the stored issue and no assignee component, whether or not the stored issue
has an assignee; in all three cases the store is returned unchanged. -/
theorem C12_detail_view (s : Store) (id : Int) :
    (id ≤ 0 → getIssueByID s (some id) = (s, respondWithError 400 "Invalid issue id")) ∧
      (0 < id → mapGet s.issues id.toNat = none →
        getIssueByID s (some id) = (s, respondWithError 404 "Issue not found")) ∧
      (∀ issue, 0 < id → mapGet s.issues id.toNat = some issue →
        getIssueByID s (some id) =
          (s, ⟨200, Body.detail issue.ID issue.Title issue.Description issue.Status
            issue.CreatedAt issue.UpdatedAt⟩)) ∧
      (getIssueByID s (some id)).1 = s := by
  refine ⟨?_, ?_, ?_, getIssueByID_store s (some id)⟩
  · intro h
    simp [getIssueByID, h]
  · intro h hget
    have h' : ¬ id ≤ 0 := not_le.mpr h
    simp [getIssueByID, h', hget]
  · intro issue h hget
    have h' : ¬ id ≤ 0 := not_le.mpr h
    simp [getIssueByID, h', hget]

/-- C12 at a concrete input: the detail view of an issue that has an assignee. -/
theorem C12_detail_view_witness :
    getIssueByID (sampleStore "IN_PROGRESS" (some userKim)) (some 1) =
      (sampleStore "IN_PROGRESS" (some userKim),
        ⟨200, Body.detail (sampleIssue "IN_PROGRESS" (some userKim)).ID
          (sampleIssue "IN_PROGRESS" (some userKim)).Title
          (sampleIssue "IN_PROGRESS" (some userKim)).Description
          (sampleIssue "IN_PROGRESS" (some userKim)).Status
          (sampleIssue "IN_PROGRESS" (some userKim)).CreatedAt
          (sampleIssue "IN_PROGRESS" (some userKim)).UpdatedAt⟩) :=
  (C12_detail_view (sampleStore "IN_PROGRESS" (some userKim)) 1).2.2.1
    (sampleIssue "IN_PROGRESS" (some userKim)) (by decide) (by decide)

theorem locked_plain (issue : Issue) (req : UpdateIssueRequest) (now : Nat)
    (huid : req.UserID = none) (hst : req.Status = none) :
    updateIssue.locked issue req now =
      (updateIssue.fields issue issue.User req now,
        ⟨200, Body.issue (updateIssue.fields issue issue.User req now)⟩) := by
  simp [updateIssue.locked, updateIssue.assignee, updateIssue.status, huid, hst]

theorem locked_unknown_user (issue : Issue) (req : UpdateIssueRequest) (now : Nat) (uid : Nat)
    (huid : req.UserID = some uid) (h0 : uid ≠ 0) (hu : mapGet users uid = none) :
    updateIssue.locked issue req now = (issue, respondWithError 400 "유효하지 않은 userId") := by
  simp [updateIssue.locked, updateIssue.assignee, huid, h0, hu]

theorem locked_status_cases (issue : Issue) (req : UpdateIssueRequest) (now : Nat) :
    (updateIssue.locked issue req now).1.Status = issue.Status ∨
      (updateIssue.locked issue req now).1.Status = "PENDING" ∨
      (updateIssue.locked issue req now).1.Status = "IN_PROGRESS" ∨
      ∃ st, req.Status = some st ∧ isValidStatus st = true ∧
        (updateIssue.locked issue req now).1.Status = st := by
  cases huid : req.UserID with
  | none =>
    cases hst : req.Status with
    | none =>
      rw [locked_plain issue req now huid hst, fields_eq]
      exact Or.inl rfl
    | some st =>
      cases hv : isValidStatus st with
      | false =>
        rw [locked_status_invalid issue req now st hst hv (Or.inl huid)]
        exact Or.inl rfl
      | true =>
        by_cases hbad : issue.User = none ∧ st ≠ "PENDING" ∧ st ≠ "CANCELLED"
        · rw [locked_status_rejected issue req now st huid hst hv hbad]
          exact Or.inl rfl
        · rw [locked_status_kept_user issue req now st huid hst hv hbad, fields_eq]
          exact Or.inr (Or.inr (Or.inr ⟨st, rfl, hv, rfl⟩))
  | some uid =>
    by_cases h0 : uid = 0
    · subst h0
      cases hst : req.Status with
      | none =>
        rw [locked_clear issue req now huid hst, fields_eq]
        exact Or.inr (Or.inl rfl)
      | some st =>
        by_cases hok : st = "PENDING" ∨ st = "CANCELLED"
        · rw [locked_clear_status issue req now st huid hst hok, fields_eq]
          exact Or.inr (Or.inr (Or.inr ⟨st, rfl, (isValidStatus_iff st).mpr (by tauto), rfl⟩))
        · obtain ⟨msg, h⟩ := locked_clear_rejected issue req now st huid hst
            (fun h => hok (Or.inl h)) (fun h => hok (Or.inr h))
          rw [h]
          exact Or.inr (Or.inl rfl)
    · cases hu : mapGet users uid with
      | none =>
        rw [locked_unknown_user issue req now uid huid h0 hu]
        exact Or.inl rfl
      | some u =>
        cases hst : req.Status with
        | none =>
          rw [locked_assign issue req now uid u huid h0 hu hst, fields_eq]
          by_cases hp : issue.Status = "PENDING"
          · simp [hp]
          · simp [hp]
        | some st =>
          cases hv : isValidStatus st with
          | false =>
            rw [locked_status_invalid issue req now st hst hv (Or.inr ⟨uid, u, huid, h0, hu⟩)]
            exact Or.inl rfl
          | true =>
            rw [locked_status_new_user issue req now st uid u huid h0 hu hst hv, fields_eq]
            exact Or.inr (Or.inr (Or.inr ⟨st, rfl, hv, rfl⟩))

theorem locked_statusRule (issue : Issue) (req : UpdateIssueRequest) (now : Nat)
    (h : issue.statusRule) : (updateIssue.locked issue req now).1.statusRule := by
  unfold Issue.statusRule at h ⊢
  rcases locked_status_cases issue req now with h' | h' | h' | ⟨st, _, hv, h'⟩
  · rw [h']; exact h
  · rw [h']; exact Or.inl rfl
  · rw [h']; exact Or.inr (Or.inl rfl)
  · rw [h']; exact (isValidStatus_iff st).mp hv

theorem serve_statusRule (s : Store) (c : Call) (hs : s.statusRule) :
    (serve s c).1.statusRule := by
  cases c with
  | create now body =>
    rcases createIssue_cases s now body with ⟨h, _⟩ | ⟨req, user, status, _, _, hus, h⟩
    · simp only [serve, h]; exact hs
    · simp only [serve, h, createIssue_store_eq]
      refine mapSet_forall Issue.statusRule _ _ _ hs ?_
      rcases hus with ⟨_, _, hst⟩ | ⟨uid, u, _, _, _, hst⟩
      · subst hst; exact Or.inl rfl
      · subst hst; exact Or.inr (Or.inl rfl)
  | update now idParsed body =>
    rcases updateIssue_store_cases s now idParsed body with h | ⟨id, req, issue, _, _, _, hget, _, h⟩
    · simp only [serve, h]; exact hs
    · simp only [serve, h]
      exact mapSet_forall Issue.statusRule _ _ _ hs
        (locked_statusRule issue req now (hs _ (mem_of_mapGet _ _ _ hget)))
  | getAll statusFilter => simp only [serve, getAllIssues_store]; exact hs
  | getByID idParsed => simp only [serve, getIssueByID_store]; exact hs

/-- C16. Status is always one of the four enumerated values: in every store
reached from the initial empty store by a finite sequence of requests, with
arbitrary status strings in the update payloads, the status of every stored
issue is exactly one of `PENDING`, `IN_PROGRESS`, `COMPLETED`, `CANCELLED`; in
particular it is never the empty string. -/
theorem C16_status_is_enumerated (calls : List Call) :
    (∀ e ∈ (serveAll initialStore calls).1.issues,
        e.2.Status = "PENDING" ∨ e.2.Status = "IN_PROGRESS" ∨ e.2.Status = "COMPLETED" ∨
          e.2.Status = "CANCELLED") ∧
      (∀ k issue, mapGet (serveAll initialStore calls).1.issues k = some issue →
        (issue.Status = "PENDING" ∨ issue.Status = "IN_PROGRESS" ∨
          issue.Status = "COMPLETED" ∨ issue.Status = "CANCELLED") ∧ issue.Status ≠ "") := by
  have h : (serveAll initialStore calls).1.statusRule :=
    serveAll_invariant Store.statusRule serve_statusRule initialStore
      (by intro e he; simp [initialStore] at he) calls
  refine ⟨fun e he => h e he, fun k issue hget => ?_⟩
  have hi := h _ (mem_of_mapGet _ _ _ hget)
  refine ⟨hi, ?_⟩
  rcases hi with hi | hi | hi | hi <;> rw [hi] <;> decide

/-- C17. Lifecycle scenario on the initial store: the create of title `bug`
answers 201 with id 1, status `PENDING` and no assignee; the update of id 1
with `userId: 1` answers 200 with status `IN_PROGRESS` and user 1; the update
with status `COMPLETED` answers 200 with status `COMPLETED` and still user 1;
the update with title `x` answers 403, and the stored title is still `bug`. -/
theorem C17_lifecycle_scenario :
    serveAll initialStore
        [Call.create 1 (some ⟨"bug", none, none⟩),
          Call.update 2 (some 1) (some ⟨none, none, none, some 1⟩),
          Call.update 3 (some 1) (some ⟨none, none, some "COMPLETED", none⟩),
          Call.update 4 (some 1) (some ⟨some "x", none, none, none⟩)] =
      (⟨[(1, ⟨1, "bug", "", "COMPLETED", some ⟨1, "김개발"⟩, 1, 3⟩)], 2⟩,
        [⟨201, Body.issue ⟨1, "bug", "", "PENDING", none, 1, 1⟩⟩,
          ⟨200, Body.issue ⟨1, "bug", "", "IN_PROGRESS", some ⟨1, "김개발"⟩, 1, 2⟩⟩,
          ⟨200, Body.issue ⟨1, "bug", "", "COMPLETED", some ⟨1, "김개발"⟩, 1, 3⟩⟩,
          respondWithError 403 "Completed or cancelled issues cannot be updated"]) := by
  decide

theorem updateIssue_cases (s : Store) (now : Nat) (idParsed : Option Int)
    (body : Option UpdateIssueRequest) :
    (∃ code msg, (code = 400 ∨ code = 403 ∨ code = 404) ∧
        updateIssue s now idParsed body = (s, respondWithError code msg)) ∨
      ∃ id req issue, 0 < id ∧ idParsed = some id ∧ body = some req ∧
        mapGet s.issues id.toNat = some issue ∧
        ¬ (issue.Status = "COMPLETED" ∨ issue.Status = "CANCELLED") := by
  cases idParsed with
  | none => exact Or.inl ⟨400, _, by simp, rfl⟩
  | some id =>
    by_cases hid : id ≤ 0
    · have h : updateIssue s now (some id) body = (s, respondWithError 400 "Invalid issue id") := by
        simp [updateIssue, hid]
      exact Or.inl ⟨400, _, by simp, h⟩
    · cases body with
      | none =>
        have h : updateIssue s now (some id) none =
            (s, respondWithError 400 "Invalid JSON body") := by
          simp [updateIssue, hid]
        exact Or.inl ⟨400, _, by simp, h⟩
      | some req =>
        cases hget : mapGet s.issues id.toNat with
        | none =>
          have h : updateIssue s now (some id) (some req) =
              (s, respondWithError 404 "Issue not found") := by
            simp [updateIssue, hid, hget]
          exact Or.inl ⟨404, _, by simp, h⟩
        | some issue =>
          by_cases hopen : issue.Status = "COMPLETED" ∨ issue.Status = "CANCELLED"
          · exact Or.inl ⟨403, _, by simp,
              updateIssue_terminal s now id req issue (not_le.mp hid) hget hopen⟩
          · exact Or.inr ⟨id, req, issue, not_le.mp hid, rfl, rfl, hget, hopen⟩

theorem mem_keys_of_mapGet {β : Type} (m : List (Nat × β)) (k : Nat) (v : β)
    (h : mapGet m k = some v) : k ∈ m.map Prod.fst :=
  List.mem_map.mpr ⟨(k, v), mem_of_mapGet m k v h, rfl⟩

/-- C19. Frame of a successful update: whenever an update answers 200 at time
`now`, it addressed a positive id under which an issue was stored; the record
stored under that id afterwards is the one in the response, has the same `ID`
and `CreatedAt` as before and `UpdatedAt = now`; the lookup of every other key
is unchanged; and the list of stored keys and the identifier counter are
unchanged. -/
theorem C19_successful_update_frame (s : Store) (now : Nat) (idParsed : Option Int)
    (body : Option UpdateIssueRequest)
    (hok : (updateIssue s now idParsed body).2.code = 200) :
    ∃ id issue issue', idParsed = some id ∧ 0 < id ∧
      mapGet s.issues id.toNat = some issue ∧
      (updateIssue s now idParsed body).2 = ⟨200, Body.issue issue'⟩ ∧
      mapGet (updateIssue s now idParsed body).1.issues id.toNat = some issue' ∧
      issue'.ID = issue.ID ∧ issue'.CreatedAt = issue.CreatedAt ∧ issue'.UpdatedAt = now ∧
      (∀ k, k ≠ id.toNat →
        mapGet (updateIssue s now idParsed body).1.issues k = mapGet s.issues k) ∧
      (updateIssue s now idParsed body).1.issues.map Prod.fst = s.issues.map Prod.fst ∧
      (updateIssue s now idParsed body).1.issueIDSeq = s.issueIDSeq := by
  rcases updateIssue_cases s now idParsed body with
    ⟨code, msg, hc, h⟩ | ⟨id, req, issue, hid, hi, hb, hget, hopen⟩
  · exfalso
    rw [h] at hok
    simp only [respondWithError] at hok
    omega
  · subst hi; subst hb
    rw [updateIssue_open s now id req issue hid hget hopen] at hok ⊢
    rcases locked_cases issue req now with ⟨msg, h⟩ | ⟨msg, _, h⟩ | ⟨status, user, h⟩
    · rw [h] at hok; simp [respondWithError] at hok
    · rw [h] at hok; simp [respondWithError] at hok
    · rw [h]
      refine ⟨id, issue, _, rfl, hid, hget, rfl, mapGet_assign _ _ _, ?_, ?_, ?_, ?_, ?_, rfl⟩
      · simp [fields_eq]
      · simp [fields_eq]
      · simp [fields_eq]
      · intro k hk
        have hk' : ¬ id.toNat = k := fun h => hk h.symm
        simp [Store.assign, mapGet_mapSet, hk']
      · simp [Store.assign, keys_mapSet, mem_keys_of_mapGet _ _ _ hget]

/-- C19 at a concrete input: a `PENDING` issue receives a new title at time 9. -/
theorem C19_successful_update_frame_witness :
    ∃ id issue issue', some (1 : Int) = some id ∧ 0 < id ∧
      mapGet (sampleStore "PENDING" none).issues id.toNat = some issue ∧
      (updateIssue (sampleStore "PENDING" none) 9 (some 1)
        (some ⟨some "x", none, none, none⟩)).2 = ⟨200, Body.issue issue'⟩ ∧
      mapGet (updateIssue (sampleStore "PENDING" none) 9 (some 1)
        (some ⟨some "x", none, none, none⟩)).1.issues id.toNat = some issue' ∧
      issue'.ID = issue.ID ∧ issue'.CreatedAt = issue.CreatedAt ∧ issue'.UpdatedAt = 9 ∧
      (∀ k, k ≠ id.toNat →
        mapGet (updateIssue (sampleStore "PENDING" none) 9 (some 1)
          (some ⟨some "x", none, none, none⟩)).1.issues k =
        mapGet (sampleStore "PENDING" none).issues k) ∧
      (updateIssue (sampleStore "PENDING" none) 9 (some 1)
        (some ⟨some "x", none, none, none⟩)).1.issues.map Prod.fst =
        (sampleStore "PENDING" none).issues.map Prod.fst ∧
      (updateIssue (sampleStore "PENDING" none) 9 (some 1)
        (some ⟨some "x", none, none, none⟩)).1.issueIDSeq =
        (sampleStore "PENDING" none).issueIDSeq :=
  C19_successful_update_frame (sampleStore "PENDING" none) 9 (some 1)
    (some ⟨some "x", none, none, none⟩) (by decide)

/-- C20. Carry-through when nothing is requested: for every stored non-terminal
issue and every payload with neither `userId` nor status, the update answers
200 with the stored record, whose status and assignee are those before, whose
title is the payload title when supplied (any string) and the old title
otherwise, and whose description is the payload description when supplied and
the old description otherwise.  And for every payload without `userId`,
whatever its status field and whether the update succeeds or fails, the record
stored afterwards has the assignee it had before. -/
theorem C20_carry_through (s : Store) (now : Nat) (id : Int) (req : UpdateIssueRequest)
    (issue : Issue) (hid : 0 < id) (hget : mapGet s.issues id.toNat = some issue)
    (hopen : ¬ (issue.Status = "COMPLETED" ∨ issue.Status = "CANCELLED"))
    (huid : req.UserID = none) :
    (req.Status = none →
        ∃ issue', updateIssue s now (some id) (some req) =
            (s.assign id.toNat issue', ⟨200, Body.issue issue'⟩) ∧
          mapGet (updateIssue s now (some id) (some req)).1.issues id.toNat = some issue' ∧
          issue'.Status = issue.Status ∧ issue'.User = issue.User ∧
          issue'.Title = (match req.Title with
            | some title => title
            | none => issue.Title) ∧
          issue'.Description = (match req.Description with
            | some description => description
            | none => issue.Description)) ∧
      (∃ issue', mapGet (updateIssue s now (some id) (some req)).1.issues id.toNat =
          some issue' ∧ issue'.User = issue.User) := by
  rw [updateIssue_open s now id req issue hid hget hopen]
  constructor
  · intro hst
    rw [locked_plain issue req now huid hst]
    refine ⟨_, rfl, mapGet_assign _ _ _, by simp [fields_eq], by simp [fields_eq], ?_, ?_⟩
    · rw [fields_eq]; cases req.Title <;> rfl
    · rw [fields_eq]; cases req.Description <;> rfl
  · refine ⟨_, mapGet_assign _ _ _, ?_⟩
    cases hst : req.Status with
    | none => rw [locked_plain issue req now huid hst, fields_eq]
    | some st =>
      cases hv : isValidStatus st with
      | false => rw [locked_status_invalid issue req now st hst hv (Or.inl huid)]
      | true =>
        by_cases hbad : issue.User = none ∧ st ≠ "PENDING" ∧ st ≠ "CANCELLED"
        · rw [locked_status_rejected issue req now st huid hst hv hbad]
        · rw [locked_status_kept_user issue req now st huid hst hv hbad, fields_eq]

/-- C20 at a concrete input: an `IN_PROGRESS` issue assigned to user 1 receives
an empty title and a description, and nothing else. -/
theorem C20_carry_through_witness :
    ∃ issue', updateIssue (sampleStore "IN_PROGRESS" (some userKim)) 9 (some 1)
          (some ⟨some "", some "details", none, none⟩) =
        ((sampleStore "IN_PROGRESS" (some userKim)).assign (1 : Int).toNat issue',
          ⟨200, Body.issue issue'⟩) ∧
      mapGet (updateIssue (sampleStore "IN_PROGRESS" (some userKim)) 9 (some 1)
          (some ⟨some "", some "details", none, none⟩)).1.issues (1 : Int).toNat =
        some issue' ∧
      issue'.Status = (sampleIssue "IN_PROGRESS" (some userKim)).Status ∧
      issue'.User = (sampleIssue "IN_PROGRESS" (some userKim)).User ∧
      issue'.Title = (match (some "" : Option String) with
        | some title => title
        | none => (sampleIssue "IN_PROGRESS" (some userKim)).Title) ∧
      issue'.Description = (match (some "details" : Option String) with
        | some description => description
        | none => (sampleIssue "IN_PROGRESS" (some userKim)).Description) :=
  (C20_carry_through (sampleStore "IN_PROGRESS" (some userKim)) 9 1
    ⟨some "", some "details", none, none⟩ (sampleIssue "IN_PROGRESS" (some userKim))
    (by decide) (by decide) (by decide) rfl).1 rfl

/-! ## The list handler -/

theorem mem_mapKeysFrom {β : Type} (m : List (Nat × β)) (seen : List Nat) (k : Nat) :
    k ∈ mapKeysFrom seen m ↔ k ∉ seen ∧ k ∈ m.map Prod.fst := by
  induction m generalizing seen with
  | nil => simp [mapKeysFrom]
  | cons e rest ih =>
    obtain ⟨k0, v0⟩ := e
    by_cases h0 : k0 ∈ seen
    · simp only [mapKeysFrom, h0, if_true, ih, List.map_cons, List.mem_cons]
      constructor
      · rintro ⟨h1, h2⟩
        exact ⟨h1, Or.inr h2⟩
      · rintro ⟨h1, h2 | h2⟩
        · exact absurd (h2 ▸ h0) h1
        · exact ⟨h1, h2⟩
    · simp only [mapKeysFrom, h0, if_false, List.mem_cons, ih, List.map_cons, not_or]
      constructor
      · rintro (h | ⟨⟨h1, h2⟩, h3⟩)
        · subst h
          exact ⟨h0, Or.inl rfl⟩
        · exact ⟨h2, Or.inr h3⟩
      · rintro ⟨h1, h2 | h2⟩
        · exact Or.inl h2
        · by_cases hk : k = k0
          · exact Or.inl hk
          · exact Or.inr ⟨⟨hk, h1⟩, h2⟩

theorem nodup_mapKeysFrom {β : Type} (m : List (Nat × β)) (seen : List Nat) :
    (mapKeysFrom seen m).Nodup := by
  induction m generalizing seen with
  | nil => simp [mapKeysFrom]
  | cons e rest ih =>
    obtain ⟨k0, v0⟩ := e
    by_cases h0 : k0 ∈ seen
    · simp only [mapKeysFrom, h0, if_true]
      exact ih seen
    · simp only [mapKeysFrom, h0, if_false, List.nodup_cons]
      refine ⟨?_, ih (k0 :: seen)⟩
      intro hmem
      have := ((mem_mapKeysFrom rest (k0 :: seen) k0).mp hmem).1
      simp at this

theorem filterMap_congr_mem {α β : Type} (l : List α) (f g : α → Option β)
    (h : ∀ a ∈ l, f a = g a) : l.filterMap f = l.filterMap g := by
  induction l with
  | nil => rfl
  | cons a rest ih =>
    have ha : f a = g a := h a (List.mem_cons_self a rest)
    have hr : rest.filterMap f = rest.filterMap g :=
      ih (fun b hb => h b (List.mem_cons_of_mem a hb))
    simp only [List.filterMap_cons, ha, hr]

theorem mapValuesFrom_eq {β : Type} (m : List (Nat × β)) (seen : List Nat) :
    mapValuesFrom seen m = (mapKeysFrom seen m).filterMap (mapGet m) := by
  induction m generalizing seen with
  | nil => simp [mapValuesFrom, mapKeysFrom]
  | cons e rest ih =>
    obtain ⟨k0, v0⟩ := e
    by_cases h0 : k0 ∈ seen
    · simp only [mapValuesFrom, mapKeysFrom, h0, if_true]
      rw [ih seen]
      apply filterMap_congr_mem
      intro k hk
      have hks : k ∉ seen := ((mem_mapKeysFrom rest seen k).mp hk).1
      have hne : ¬ k0 = k := fun h => hks (h ▸ h0)
      simp [mapGet, hne]
    · simp only [mapValuesFrom, mapKeysFrom, h0, if_false, List.filterMap_cons, mapGet, if_true]
      rw [ih (k0 :: seen)]
      congr 1
      apply filterMap_congr_mem
      intro k hk
      have hks : k ∉ k0 :: seen := ((mem_mapKeysFrom rest (k0 :: seen) k).mp hk).1
      have hne : ¬ k0 = k := fun h => hks (by simp [h])
      simp [mapGet, hne]

theorem mem_keys_iff_mapGet {β : Type} (m : List (Nat × β)) (k : Nat) :
    k ∈ m.map Prod.fst ↔ ∃ v, mapGet m k = some v := by
  induction m with
  | nil => simp [mapGet]
  | cons e rest ih =>
    obtain ⟨k0, v0⟩ := e
    by_cases h0 : k0 = k
    · simp [mapGet, h0]
    · have h0' : ¬ k = k0 := fun h => h0 h.symm
      simp [mapGet, h0, h0', ih]

theorem filter_filterMap_keys {α β : Type} (l : List α) (f : α → Option β) (p : β → Bool) :
    (l.filterMap f).filter p = (l.filter (fun a => Option.any p (f a))).filterMap f := by
  induction l with
  | nil => rfl
  | cons a rest ih =>
    cases hf : f a with
    | none => simp [List.filterMap_cons, List.filter_cons, hf, ih]
    | some b =>
      cases hp : p b with
      | false => simp [List.filterMap_cons, List.filter_cons, hf, hp, ih]
      | true => simp [List.filterMap_cons, List.filter_cons, hf, hp, ih]

theorem length_filterMap_of_isSome {α β : Type} (l : List α) (f : α → Option β)
    (h : ∀ a ∈ l, ∃ b, f a = some b) : (l.filterMap f).length = l.length := by
  induction l with
  | nil => rfl
  | cons a rest ih =>
    obtain ⟨b, hb⟩ := h a (List.mem_cons_self a rest)
    simp [List.filterMap_cons, hb, ih (fun c hc => h c (List.mem_cons_of_mem a hc))]

theorem getAllIssues_eq (s : Store) (statusFilter : String)
    (h : statusFilter = "" ∨ isValidStatus statusFilter = true) :
    ∃ p : Issue → Bool,
      (∀ issue, p issue = true ↔ (statusFilter = "" ∨ issue.Status = statusFilter)) ∧
      getAllIssues s statusFilter = (s, ⟨200, Body.issues ((mapValues s.issues).filter p)⟩) := by
  have hcond : ¬ (statusFilter ≠ "" ∧ isValidStatus statusFilter = false) := by
    rcases h with h | h
    · simp [h]
    · simp [h]
  have hres : getAllIssues s statusFilter =
      (s, ⟨200, Body.issues ((mapValues s.issues).filter
        (fun issue => decide (statusFilter = "" ∨ issue.Status = statusFilter)))⟩) := by
    simp only [getAllIssues, hcond, if_false]
  exact ⟨_, fun issue => by simp, hres⟩

theorem getAllIssues_ok (s : Store) (statusFilter : String)
    (h : statusFilter = "" ∨ isValidStatus statusFilter = true) :
    ∃ ks : List Nat, ks.Nodup ∧
      (∀ k, k ∈ ks ↔ ∃ issue, mapGet s.issues k = some issue ∧
        (statusFilter = "" ∨ issue.Status = statusFilter)) ∧
      getAllIssues s statusFilter = (s, ⟨200, Body.issues (ks.filterMap (mapGet s.issues))⟩) ∧
      (ks.filterMap (mapGet s.issues)).length = ks.length := by
  obtain ⟨p, hp, hres⟩ := getAllIssues_eq s statusFilter h
  have hmem : ∀ k, k ∈ (mapKeysFrom [] s.issues).filter
        (fun k => Option.any p (mapGet s.issues k)) ↔
      ∃ issue, mapGet s.issues k = some issue ∧
        (statusFilter = "" ∨ issue.Status = statusFilter) := by
    intro k
    rw [List.mem_filter, mem_mapKeysFrom, mem_keys_iff_mapGet]
    constructor
    · rintro ⟨⟨_, issue, hget⟩, hpk⟩
      rw [hget] at hpk
      exact ⟨issue, hget, (hp issue).mp (by simpa using hpk)⟩
    · rintro ⟨issue, hget, hpk⟩
      refine ⟨⟨by simp, issue, hget⟩, ?_⟩
      rw [hget]
      simpa using (hp issue).mpr hpk
  refine ⟨_, (nodup_mapKeysFrom s.issues []).filter _, hmem, ?_, ?_⟩
  · rw [hres, mapValues, mapValuesFrom_eq, filter_filterMap_keys]
  · apply length_filterMap_of_isSome
    intro k hk
    obtain ⟨issue, hget, _⟩ := (hmem k).mp hk
    exact ⟨issue, hget⟩

/-- C13. List filtering: for every store, a non-empty filter that is none of
the four status values is answered 400 with the invalid-status error; the
empty filter is answered 200 with the record of every stored key, each key
once; a filter equal to one of the four status values is answered 200 with the
record of every stored key whose status equals the filter, each key once, and
nothing else.  The records are the stored `Issue` values, assignee included,
and the store is returned unchanged. -/
theorem C13_list_filtering (s : Store) (statusFilter : String) :
    (statusFilter ≠ "" →
        ¬ (statusFilter = "PENDING" ∨ statusFilter = "IN_PROGRESS" ∨
          statusFilter = "COMPLETED" ∨ statusFilter = "CANCELLED") →
        getAllIssues s statusFilter = (s, respondWithError 400 "유효하지 않은 status")) ∧
      (statusFilter = "" →
        ∃ ks : List Nat, ks.Nodup ∧
          (∀ k, k ∈ ks ↔ ∃ issue, mapGet s.issues k = some issue) ∧
          getAllIssues s statusFilter =
            (s, ⟨200, Body.issues (ks.filterMap (mapGet s.issues))⟩) ∧
          (ks.filterMap (mapGet s.issues)).length = ks.length) ∧
      ((statusFilter = "PENDING" ∨ statusFilter = "IN_PROGRESS" ∨
          statusFilter = "COMPLETED" ∨ statusFilter = "CANCELLED") →
        ∃ ks : List Nat, ks.Nodup ∧
          (∀ k, k ∈ ks ↔ ∃ issue, mapGet s.issues k = some issue ∧
            issue.Status = statusFilter) ∧
          getAllIssues s statusFilter =
            (s, ⟨200, Body.issues (ks.filterMap (mapGet s.issues))⟩) ∧
          (ks.filterMap (mapGet s.issues)).length = ks.length) ∧
      (getAllIssues s statusFilter).1 = s := by
  refine ⟨?_, ?_, ?_, getAllIssues_store s statusFilter⟩
  · intro hne hbad
    have hv := isValidStatus_eq_false statusFilter hbad
    simp [getAllIssues, hne, hv]
  · intro he
    obtain ⟨ks, hnd, hmem, hres, hlen⟩ := getAllIssues_ok s statusFilter (Or.inl he)
    refine ⟨ks, hnd, ?_, hres, hlen⟩
    intro k
    rw [hmem k]
    simp [he]
  · intro hv
    obtain ⟨ks, hnd, hmem, hres, hlen⟩ :=
      getAllIssues_ok s statusFilter (Or.inr ((isValidStatus_iff statusFilter).mpr hv))
    refine ⟨ks, hnd, ?_, hres, hlen⟩
    intro k
    rw [hmem k]
    have hne : statusFilter ≠ "" := by
      rcases hv with h | h | h | h <;> rw [h] <;> decide
    simp [hne]

theorem mem_getAllIssues (s : Store) (statusFilter : String) (k : Nat) (issue : Issue)
    (h : statusFilter = "" ∨ isValidStatus statusFilter = true)
    (hget : mapGet s.issues k = some issue)
    (hst : statusFilter = "" ∨ issue.Status = statusFilter) :
    ∃ l, getAllIssues s statusFilter = (s, ⟨200, Body.issues l⟩) ∧ issue ∈ l := by
  obtain ⟨ks, _, hmem, hres, _⟩ := getAllIssues_ok s statusFilter h
  refine ⟨_, hres, ?_⟩
  exact List.mem_filterMap.mpr ⟨k, (hmem k).mpr ⟨issue, hget, hst⟩, hget⟩

/-- C14. Create/read round trip: for every store whose identifier counter is
positive and below `2 ^ 63` (an identifier that `strconv.Atoi` reads back from
its numeral) and every create that answers 201 with record `r`, the unfiltered
list served next contains `r` itself (all seven fields), the list filtered by
the status of `r` contains it too, and the detail view addressed with the
numeral of `r.ID` answers 200 with the `ID`, `Title`, `Description`, `Status`,
`CreatedAt` and `UpdatedAt` of `r`. -/
theorem C14_create_read_round_trip (s : Store) (now : Nat)
    (body : Option CreateIssueRequest) (r : Issue) (hseq : 0 < s.issueIDSeq)
    (hrange : s.issueIDSeq < 2 ^ 63)
    (hcreate : (createIssue s now body).2 = ⟨201, Body.issue r⟩) :
    (∃ l, getAllIssues (createIssue s now body).1 "" =
          ((createIssue s now body).1, ⟨200, Body.issues l⟩) ∧ r ∈ l) ∧
      (∃ l, getAllIssues (createIssue s now body).1 r.Status =
          ((createIssue s now body).1, ⟨200, Body.issues l⟩) ∧ r ∈ l) ∧
      getIssueByID (createIssue s now body).1 (atoiNumeral r.ID) =
        ((createIssue s now body).1,
          ⟨200, Body.detail r.ID r.Title r.Description r.Status r.CreatedAt r.UpdatedAt⟩) := by
  rcases createIssue_cases s now body with ⟨_, msg, h⟩ | ⟨req, user, status, _, _, hus, h⟩
  · rw [h] at hcreate
    simp [respondWithError] at hcreate
  · rw [h, createIssue_store_eq] at hcreate
    simp only [Response.mk.injEq, Body.issue.injEq, true_and] at hcreate
    subst hcreate
    have hget : mapGet (createIssue s now body).1.issues s.issueIDSeq =
        some (createIssue.record s now req user status) := by
      rw [h, createIssue_store_eq]
      simp [mapGet_mapSet]
    have hvalid : isValidStatus status = true := by
      rcases hus with ⟨_, _, hst⟩ | ⟨_, _, _, _, _, hst⟩ <;> subst hst <;> decide
    refine ⟨mem_getAllIssues _ "" _ _ (Or.inl rfl) hget (Or.inl rfl),
      mem_getAllIssues _ status _ _ (Or.inr hvalid) hget (Or.inr rfl), ?_⟩
    have hatoi : atoiNumeral (createIssue.record s now req user status).ID =
        some ((createIssue.record s now req user status).ID : Int) := by
      simp only [atoiNumeral, createIssue.record, hrange, if_true]
    have hid : ¬ ((createIssue.record s now req user status).ID : Int) ≤ 0 := by
      simp only [createIssue.record]
      omega
    have hnat : ((createIssue.record s now req user status).ID : Int).toNat = s.issueIDSeq := by
      simp [createIssue.record]
    simp only [hatoi, getIssueByID, hid, if_false, hnat, hget]

/-- C14 at a concrete input: a create with a known user on a store that already
holds one issue. -/
theorem C14_create_read_round_trip_witness :
    (∃ l, getAllIssues (createIssue (sampleStore "PENDING" none) 9
            (some ⟨"t", some "d", some 2⟩)).1 "" =
          ((createIssue (sampleStore "PENDING" none) 9 (some ⟨"t", some "d", some 2⟩)).1,
            ⟨200, Body.issues l⟩) ∧
        (⟨2, "t", "d", "IN_PROGRESS", some ⟨2, "이디자인"⟩, 9, 9⟩ : Issue) ∈ l) ∧
      (∃ l, getAllIssues (createIssue (sampleStore "PENDING" none) 9
            (some ⟨"t", some "d", some 2⟩)).1
            (⟨2, "t", "d", "IN_PROGRESS", some ⟨2, "이디자인"⟩, 9, 9⟩ : Issue).Status =
          ((createIssue (sampleStore "PENDING" none) 9 (some ⟨"t", some "d", some 2⟩)).1,
            ⟨200, Body.issues l⟩) ∧
        (⟨2, "t", "d", "IN_PROGRESS", some ⟨2, "이디자인"⟩, 9, 9⟩ : Issue) ∈ l) ∧
      getIssueByID (createIssue (sampleStore "PENDING" none) 9
          (some ⟨"t", some "d", some 2⟩)).1
          (atoiNumeral (⟨2, "t", "d", "IN_PROGRESS", some ⟨2, "이디자인"⟩, 9, 9⟩ : Issue).ID) =
        ((createIssue (sampleStore "PENDING" none) 9 (some ⟨"t", some "d", some 2⟩)).1,
          ⟨200, Body.detail 2 "t" "d" "IN_PROGRESS" 9 9⟩) :=
  C14_create_read_round_trip (sampleStore "PENDING" none) 9 (some ⟨"t", some "d", some 2⟩)
    ⟨2, "t", "d", "IN_PROGRESS", some ⟨2, "이디자인"⟩, 9, 9⟩ (by decide) (by decide) (by decide)

/-! ## Titles -/

theorem locked_Title (issue : Issue) (req : UpdateIssueRequest) (now : Nat) :
    (updateIssue.locked issue req now).1.Title = issue.Title ∨
      ∃ title, req.Title = some title ∧ (updateIssue.locked issue req now).1.Title = title := by
  rcases locked_cases issue req now with ⟨msg, h⟩ | ⟨msg, _, h⟩ | ⟨status, user, h⟩
  · rw [h]; exact Or.inl rfl
  · rw [h]; exact Or.inl rfl
  · rw [h, fields_eq]
    cases ht : req.Title with
    | none => exact Or.inl rfl
    | some title => exact Or.inr ⟨title, rfl, rfl⟩

theorem serve_titleRule (s : Store) (c : Call) (hc : ¬ c.suppliesEmptyTitle)
    (hs : s.titleRule) : (serve s c).1.titleRule := by
  cases c with
  | create now body =>
    rcases createIssue_cases s now body with ⟨h, _⟩ | ⟨req, user, status, _, ht, _, h⟩
    · simp only [serve, h]; exact hs
    · simp only [serve, h, createIssue_store_eq]
      exact mapSet_forall (fun issue : Issue => issue.Title ≠ "") _ _ _ hs ht
  | update now idParsed body =>
    rcases updateIssue_store_cases s now idParsed body with
      h | ⟨id, req, issue, _, _, hb, hget, _, h⟩
    · simp only [serve, h]; exact hs
    · simp only [serve, h]
      refine mapSet_forall (fun issue : Issue => issue.Title ≠ "") _ _ _ hs ?_
      have hold : issue.Title ≠ "" := hs _ (mem_of_mapGet _ _ _ hget)
      subst hb
      show (updateIssue.locked issue req now).1.Title ≠ ""
      rcases locked_Title issue req now with h' | ⟨title, hreq, h'⟩
      · rw [h']; exact hold
      · rw [h']
        intro hempty
        subst hempty
        exact hc hreq
  | getAll statusFilter => simp only [serve, getAllIssues_store]; exact hs
  | getByID idParsed => simp only [serve, getIssueByID_store]; exact hs

theorem serveAll_titleRule (calls : List Call) (s : Store)
    (hcalls : ∀ c ∈ calls, ¬ c.suppliesEmptyTitle) (hs : s.titleRule) :
    (serveAll s calls).1.titleRule := by
  induction calls generalizing s with
  | nil => exact hs
  | cons c cs ih =>
    exact ih (serve s c).1 (fun c' hc' => hcalls c' (List.mem_cons_of_mem c hc'))
      (serve_titleRule s c (hcalls c (List.mem_cons_self c cs)) hs)

/-- C15, as stated, fails: after the create of title `bug` on the initial
store, the update of issue 1 with title `""` answers 200 and the stored issue
has an empty title. -/
theorem C15_title_counterexample :
    (serveAll initialStore
        [Call.create 1 (some ⟨"bug", none, none⟩),
          Call.update 2 (some 1) (some ⟨some "", none, none, none⟩)]).2 =
        [⟨201, Body.issue ⟨1, "bug", "", "PENDING", none, 1, 1⟩⟩,
          ⟨200, Body.issue ⟨1, "", "", "PENDING", none, 1, 2⟩⟩] ∧
      (∃ issue, mapGet (serveAll initialStore
          [Call.create 1 (some ⟨"bug", none, none⟩),
            Call.update 2 (some 1) (some ⟨some "", none, none, none⟩)]).1.issues 1 =
          some issue ∧ issue.Title = "") := by
  refine ⟨by decide, ⟨1, "", "", "PENDING", none, 1, 2⟩, by decide⟩

/-- C15, amended. In every store reached from the initial empty store by a
finite sequence of requests in which no update payload supplies the empty
string as title, every stored issue has a non-empty title. -/
theorem C15_title_nonempty (calls : List Call)
    (hcalls : ∀ c ∈ calls, ¬ c.suppliesEmptyTitle) :
    (∀ e ∈ (serveAll initialStore calls).1.issues, e.2.Title ≠ "") ∧
      (∀ k issue, mapGet (serveAll initialStore calls).1.issues k = some issue →
        issue.Title ≠ "") := by
  have h : (serveAll initialStore calls).1.titleRule :=
    serveAll_titleRule calls initialStore hcalls
      (by intro e he; simp [initialStore] at he)
  exact ⟨fun e he => h e he, fun k issue hget => h _ (mem_of_mapGet _ _ _ hget)⟩

/-- C15 (amended) at a concrete sequence: two creates, one of them rejected for
its empty title, and an update that supplies a new non-empty title. -/
theorem C15_title_nonempty_witness :
    (∀ e ∈ (serveAll initialStore
          [Call.create 1 (some ⟨"bug", none, none⟩), Call.create 2 (some ⟨"", none, none⟩),
            Call.update 3 (some 1) (some ⟨some "x", none, none, none⟩)]).1.issues,
        e.2.Title ≠ "") ∧
      (∀ k issue, mapGet (serveAll initialStore
          [Call.create 1 (some ⟨"bug", none, none⟩), Call.create 2 (some ⟨"", none, none⟩),
            Call.update 3 (some 1) (some ⟨some "x", none, none, none⟩)]).1.issues k =
          some issue → issue.Title ≠ "") :=
  C15_title_nonempty
    [Call.create 1 (some ⟨"bug", none, none⟩), Call.create 2 (some ⟨"", none, none⟩),
      Call.update 3 (some 1) (some ⟨some "x", none, none, none⟩)] (by decide)

/-! ## Two updates in flight -/

theorem updateIssue_eq_steps (s : Store) (now : Nat) (idParsed : Option Int)
    (body : Option UpdateIssueRequest) (b : InFlight) :
    interleave s (InFlight.arrived now idParsed body) b [false, false] =
      ((updateIssue s now idParsed body).1,
        InFlight.answered (updateIssue s now idParsed body).2, b) := by
  cases idParsed with
  | none => rfl
  | some id =>
    by_cases hid : id ≤ 0
    · simp [interleave, InFlight.step, updateIssue.unlocked, updateIssue, hid]
    · cases body with
      | none => simp [interleave, InFlight.step, updateIssue.unlocked, updateIssue, hid]
      | some req =>
        cases hget : mapGet s.issues id.toNat with
        | none =>
          simp [interleave, InFlight.step, updateIssue.unlocked, updateIssue, hid, hget]
        | some issue =>
          by_cases hopen : issue.Status = "COMPLETED" ∨ issue.Status = "CANCELLED"
          · simp [interleave, InFlight.step, updateIssue.unlocked, updateIssue, hid, hget, hopen]
          · simp [interleave, InFlight.step, updateIssue.unlocked, updateIssue.critical,
              updateIssue, hid, hget, hopen]

/-- C18. Two updates of issue 1, `IN_PROGRESS` and assigned to user 1, are in
flight: the first requests status `COMPLETED`, the second the title `x`.  When
both pass the terminal-state check before either takes the second lock, the
first answers 200 and stores status `COMPLETED`, and the second then answers
200 as well and overwrites the title and update time of the completed record.
Served one after the other, the second is answered 403 and the record keeps
its title. -/
theorem C18_update_after_completion :
    interleave (sampleStore "IN_PROGRESS" (some userKim))
        (InFlight.arrived 8 (some 1) (some ⟨none, none, some "COMPLETED", none⟩))
        (InFlight.arrived 9 (some 1) (some ⟨some "x", none, none, none⟩))
        [false, true, false] =
      (⟨[(1, ⟨1, "bug", "", "COMPLETED", some userKim, 5, 8⟩)], 2⟩,
        InFlight.answered ⟨200, Body.issue ⟨1, "bug", "", "COMPLETED", some userKim, 5, 8⟩⟩,
        InFlight.waiting 9 1 ⟨some "x", none, none, none⟩) ∧
      interleave (sampleStore "IN_PROGRESS" (some userKim))
        (InFlight.arrived 8 (some 1) (some ⟨none, none, some "COMPLETED", none⟩))
        (InFlight.arrived 9 (some 1) (some ⟨some "x", none, none, none⟩))
        [false, true, false, true] =
      (⟨[(1, ⟨1, "x", "", "COMPLETED", some userKim, 5, 9⟩)], 2⟩,
        InFlight.answered ⟨200, Body.issue ⟨1, "bug", "", "COMPLETED", some userKim, 5, 8⟩⟩,
        InFlight.answered ⟨200, Body.issue ⟨1, "x", "", "COMPLETED", some userKim, 5, 9⟩⟩) ∧
      interleave (sampleStore "IN_PROGRESS" (some userKim))
        (InFlight.arrived 8 (some 1) (some ⟨none, none, some "COMPLETED", none⟩))
        (InFlight.arrived 9 (some 1) (some ⟨some "x", none, none, none⟩))
        [false, false, true, true] =
      (⟨[(1, ⟨1, "bug", "", "COMPLETED", some userKim, 5, 8⟩)], 2⟩,
        InFlight.answered ⟨200, Body.issue ⟨1, "bug", "", "COMPLETED", some userKim, 5, 8⟩⟩,
        InFlight.answered
          (respondWithError 403 "Completed or cancelled issues cannot be updated")) := by
  decide

/-- C13 at a concrete input: the filter `PENDING` on a store that holds one
unassigned `PENDING` issue. -/
theorem C13_list_filtering_witness :
    ∃ ks : List Nat, ks.Nodup ∧
      (∀ k, k ∈ ks ↔ ∃ issue, mapGet (sampleStore "PENDING" none).issues k = some issue ∧
        issue.Status = "PENDING") ∧
      getAllIssues (sampleStore "PENDING" none) "PENDING" =
        (sampleStore "PENDING" none,
          ⟨200, Body.issues (ks.filterMap (mapGet (sampleStore "PENDING" none).issues))⟩) ∧
      (ks.filterMap (mapGet (sampleStore "PENDING" none).issues)).length = ks.length :=
  (C13_list_filtering (sampleStore "PENDING" none) "PENDING").2.2.1 (Or.inl rfl)

end IssueApi
